import Mathlib

/-!
Shallow embedding of the evergrid core (the `EvergridLayout` viewport/transform
coordinator and the `LayoutSource` update engine) over exact rational
arithmetic, together with theorems settling the frozen claims about it.

Numbers are modelled as `ℚ` (the JS code uses IEEE doubles; every claim here
is about the exact algebra and control flow, which ℚ reproduces faithfully on
the rational inputs used). Animated values are modelled by their current plain
value; listener callbacks that the code installs on animated values are run
synchronously at each `setValue`, as React Native does.
-/

namespace Evergrid

/-- A 2D point `{x, y}` (`IPoint` in the source). -/
structure IPoint where
  x : ℚ
  y : ℚ
deriving DecidableEq, Repr

/-- Modelled from the spec: `zeroPoint()` from the util module (not under
`src/`) returns the zero vector `{x: 0, y: 0}`. -/
def zeroPoint : IPoint := ⟨0, 0⟩

/-- A partially specified point (`Partial<IPoint>` in the source). -/
structure PartialPoint where
  x : Option ℚ
  y : Option ℚ
deriving DecidableEq, Repr

/-- `kPanSpeedMin = 0.001` (part_000 line 37). -/
def kPanSpeedMin : ℚ := 1 / 1000

/-- Deceleration / programmatic scroll animations held in
`_descelerationAnimation` (name kept from the source). -/
inductive AnimationDesc where
  | decay (velocity : IPoint)
  | timing (toValue : IPoint)
  | spring (toValue : IPoint) (velocity : IPoint)
deriving DecidableEq, Repr

/-- Trace events recording the externally observable actions of the
coordinator: an invocation of `update()`, a `setNeedsUpdate()` delivered to a
registered layout source, the start of a decay animation, and the start of a
programmatic scroll animation. -/
inductive Ev where
  | updateCall
  | notify (src : ℕ)
  | startDecay
  | startAnim
deriving DecidableEq, Repr

/-- The mutable state of `EvergridLayout` (part_000) restricted to the fields
the claims are about. Layout sources are represented by their ids; an event
trace records invocations of `update`, notifications and animation starts. -/
structure EState where
  locationOffsetBase : IPoint
  scale : IPoint
  anchor : IPoint
  viewOffset : IPoint
  containerSize : IPoint
  panVelocity : IPoint
  panStarted : Bool
  panDefaultPrevented : Bool
  /-- Whether `_panTarget$` is the default `viewOffset$`. -/
  panTargetIsViewOffset : Bool
  hasScale : Bool
  hasContainerSize : Bool
  updateDepth : ℤ
  updateTimer : Bool
  descelerationAnimation : Option AnimationDesc
  interactionHandle : Bool
  layoutSources : List ℕ
  events : List Ev
deriving DecidableEq, Repr

/-- `get containerOriginOffset()` (part_000 lines 699-708). -/
def containerOriginOffset (s : EState) : IPoint :=
  ⟨-s.containerSize.x * s.anchor.x, -s.containerSize.y * s.anchor.y⟩

/-- `getContainerLocation(point, options?)` (part_000 lines 1005-1032):
content → container. The optional scale multiplies componentwise, skipping
missing or zero components (JS truthiness check `if (options.scale.x)`). -/
def getContainerLocation (s : EState) (point : IPoint)
    (options : Option PartialPoint) : IPoint :=
  let xl0 := s.locationOffsetBase
  let o0 := containerOriginOffset s
  let sx : ℚ :=
    match options with
    | none => s.scale.x
    | some q =>
      match q.x with
      | some v => if v = 0 then s.scale.x else s.scale.x * v
      | none => s.scale.x
  let sy : ℚ :=
    match options with
    | none => s.scale.y
    | some q =>
      match q.y with
      | some v => if v = 0 then s.scale.y else s.scale.y * v
      | none => s.scale.y
  ⟨s.viewOffset.x - o0.x + (point.x + xl0.x) * sx,
   s.viewOffset.y - o0.y + (point.y + xl0.y) * sy⟩

/-- `getLocation(point)` (part_000 lines 1097-1107): view → content, guarded
against a zero scale component. -/
def getLocation (s : EState) (point : IPoint) : IPoint :=
  if s.scale.x = 0 ∨ s.scale.y = 0 then zeroPoint
  else
    let xl0 := s.locationOffsetBase
    let o0 := containerOriginOffset s
    ⟨-xl0.x - (point.x - o0.x) / s.scale.x,
     -xl0.y - (point.y - o0.y) / s.scale.y⟩

/-- `unscaleVector(point)` (part_000 lines 983-991), guarded against a zero
scale component. -/
def unscaleVector (s : EState) (point : IPoint) : IPoint :=
  if s.scale.x = 0 ∨ s.scale.y = 0 then zeroPoint
  else ⟨point.x / s.scale.x, point.y / s.scale.y⟩

/-- `scaleVector(point)` (part_000 lines 936-941). -/
def scaleVector (s : EState) (point : IPoint) : IPoint :=
  ⟨point.x * s.scale.x, point.y * s.scale.y⟩

/-- `get locationOffset()` (part_000 lines 725-730). -/
def locationOffset (s : EState) : IPoint :=
  ⟨s.locationOffsetBase.x + s.viewOffset.x / s.scale.x,
   s.locationOffsetBase.y + s.viewOffset.y / s.scale.y⟩

/-- `get contentVelocity()` (part_000 lines 763-765). -/
def contentVelocity (s : EState) : IPoint :=
  unscaleVector s s.panVelocity

/-- `beginUpdate()` (part_000 lines 804-806). -/
def beginUpdate (s : EState) : EState :=
  { s with updateDepth := s.updateDepth + 1 }

/-- `cancelScheduledUpdate()` (part_000 lines 887-892). -/
def cancelScheduledUpdate (s : EState) : EState :=
  { s with updateTimer := false }

/-- `update()` (part_000 lines 856-885): cancels any scheduled update, latches
the first valid container size and the first non-zero scale, and once both
latches are satisfied notifies every registered layout source. An
`Ev.updateCall` event records the invocation itself. -/
def update (s : EState) : EState :=
  let s1 := { s with updateTimer := false, events := s.events ++ [Ev.updateCall] }
  if s1.hasContainerSize = false ∧ ¬(1 ≤ s1.containerSize.x ∧ 1 ≤ s1.containerSize.y) then
    s1
  else
    let s2 := { s1 with hasContainerSize := true }
    if s2.hasScale = false ∧ (s2.scale.x = 0 ∨ s2.scale.y = 0) then
      s2
    else
      let s3 := { s2 with hasScale := true }
      { s3 with events := s3.events ++ s3.layoutSources.map Ev.notify }

/-- `scheduleUpdate()` (part_000 lines 839-849): the timer path is reserved
(commented out in the source); with no pending timer it updates synchronously. -/
def scheduleUpdate (s : EState) : EState :=
  if s.updateTimer then s else update s

/-- `endUpdate()` (part_000 lines 811-821). Underflow throws
`Mismatched begin/end update calls`. -/
def endUpdate (s : EState) : Except String EState :=
  let d := s.updateDepth - 1
  if d < 0 then .error "Mismatched begin/end update calls"
  else if d > 0 then .ok { s with updateDepth := d }
  else .ok (scheduleUpdate { s with updateDepth := d })

/-- Total version of `endUpdate`, used inside composite operations that always
begin before ending (so the error branch is unreachable there); on the
unreachable underflow it mirrors the source's clamping of the depth to 0. -/
def endUpdateT (s : EState) : EState :=
  match endUpdate s with
  | .ok s1 => s1
  | .error _ => { s with updateDepth := 0 }

/-- `setNeedsUpdate()` (part_000 lines 826-830): `beginUpdate` then
`endUpdate` (never underflows). -/
def setNeedsUpdate (s : EState) : EState :=
  endUpdateT (beginUpdate s)

/-- `_transferViewOffsetToLocation()` (part_000 lines 687-697). The
`setValue` on `_locationOffsetBase$` synchronously fires its listener, which
stores the value and calls `didChangeLocation` → `setNeedsUpdate` inside the
begin/end block. -/
def transferViewOffsetToLocation (s : EState) : EState :=
  let s1 := beginUpdate s
  let location : IPoint :=
    ⟨s1.locationOffsetBase.x + s1.viewOffset.x / s1.scale.x,
     s1.locationOffsetBase.y + s1.viewOffset.y / s1.scale.y⟩
  let s2 := { s1 with viewOffset := zeroPoint, locationOffsetBase := location }
  let s3 := setNeedsUpdate s2
  endUpdateT s3

/-- `_onEndDeceleration(info)` (part_000 lines 667-672): transfers the view
offset into the base location, zeroes the pan target (whose listener, for the
default target `viewOffset$`, stores the value and calls `setNeedsUpdate`),
clears the animation and ends the interaction. -/
def onEndDeceleration (s : EState) : EState :=
  let s1 := transferViewOffsetToLocation s
  let s2 :=
    if s1.panTargetIsViewOffset then
      setNeedsUpdate { s1 with viewOffset := zeroPoint }
    else s1
  { s2 with descelerationAnimation := none, interactionHandle := false }

/-- Options for `scrollToOffset` (`IAnimationBaseOptions` plus the offset):
`useTiming` selects the timing animation over the default spring, and
`springVelocity` is `options.spring?.velocity`. -/
structure ScrollOpts where
  offsetX : Option ℚ
  offsetY : Option ℚ
  animated : Bool
  useTiming : Bool
  springVelocity : Option IPoint
  manualStart : Bool
deriving DecidableEq, Repr

/-- `scrollToOffset(options)` (part_000 lines 1131-1197). Refuses to act while
a pan is in progress; otherwise merges the view offset, then either applies
the offset immediately or constructs a timing/spring animation. Stopping an
in-flight animation runs its completion handler (with `finished: false`),
i.e. `_onEndDeceleration`. Returns the constructed animation, if any. -/
def scrollToOffset (s : EState) (o : ScrollOpts) : EState × Option AnimationDesc :=
  if s.panStarted then (s, none)
  else
    let offset : IPoint :=
      ⟨o.offsetX.getD s.locationOffsetBase.x, o.offsetY.getD s.locationOffsetBase.y⟩
    if o.offsetX.isNone ∧ o.offsetY.isNone then (s, none)
    else
      let s1 := if s.descelerationAnimation.isSome then onEndDeceleration s else s
      let s2 := { s1 with descelerationAnimation := none }
      let s3 := { s2 with interactionHandle := true }
      let s4 := transferViewOffsetToLocation s3
      if o.animated = false then
        let s5 := setNeedsUpdate { s4 with locationOffsetBase := offset }
        (onEndDeceleration s5, none)
      else
        let anim :=
          if o.useTiming then AnimationDesc.timing offset
          else AnimationDesc.spring offset (o.springVelocity.getD (contentVelocity s4))
        let s5 := { s4 with descelerationAnimation := some anim }
        if o.manualStart = false then
          ({ s5 with interactionHandle := true, events := s5.events ++ [Ev.startAnim] },
           some anim)
        else
          ({ s5 with interactionHandle := false }, some anim)

/-- `IScrollInfo` (part_000 lines 52-61). -/
structure ScrollInfo where
  location : IPoint
  velocity : IPoint
  offset : IPoint
  scaledVelocity : IPoint
deriving DecidableEq, Repr

/-- The scroll info passed to the `snapToLocation` callback by `_onEndPan`. -/
def scrollInfoOf (s : EState) : ScrollInfo :=
  ⟨locationOffset s, contentVelocity s, s.viewOffset, s.panVelocity⟩

/-- `_onEndPan()` (part_000 lines 605-661). The `snapToLocation` callback is a
parameter; if it returns a location the coordinator animates there via
`scrollToOffset` with a spring seeded by the content velocity. Otherwise, a
decay animation is started when the pan velocity reaches `kPanSpeedMin` on
either axis; otherwise the pan finalizes via `_onEndDeceleration`. -/
def onEndPan (snap : Option (ScrollInfo → Option PartialPoint)) (s : EState) : EState :=
  let s0 := { s with panStarted := false }
  let handled0 := s0.panDefaultPrevented
  let offset := locationOffset s0
  let velocity := contentVelocity s0
  let pv := s0.panVelocity
  let s9 :=
    if s0.panTargetIsViewOffset then
      let snapRes : Option PartialPoint :=
        if handled0 = false then
          match snap with
          | some f => f (scrollInfoOf s0)
          | none => none
        else none
      match snapRes with
      | some loc =>
        (scrollToOffset s0
          { offsetX := some (loc.x.getD offset.x), offsetY := some (loc.y.getD offset.y),
            animated := true, useTiming := false,
            springVelocity := some velocity, manualStart := false }).1
      | none =>
        if handled0 = false then
          if |pv.x| < kPanSpeedMin ∧ |pv.y| < kPanSpeedMin then
            onEndDeceleration s0
          else
            { s0 with
              descelerationAnimation := some (AnimationDesc.decay pv),
              interactionHandle := true,
              events := s0.events ++ [Ev.startDecay] }
        else s0
    else s0
  { s9 with panVelocity := zeroPoint }

/-- `beginUpdate` iterated. -/
def beginN : ℕ → EState → EState
  | 0, s => s
  | n + 1, s => beginN n (beginUpdate s)

/-- `endUpdate` iterated, propagating the underflow error. -/
def endN : ℕ → EState → Except String EState
  | 0, s => .ok s
  | n + 1, s => (endUpdate s).bind (endN n)

end Evergrid

namespace LayoutSrc

open Evergrid (IPoint zeroPoint)

variable {ι : Type} [DecidableEq ι]

/-- `{offset, size}` item layout (`IItemLayout` / `ILayout<IPoint>`). -/
structure Layout where
  offset : IPoint
  size : IPoint
deriving DecidableEq, Repr

/-- An item record (`IItem<T>`), with the animated mirrors represented by
their current plain values; the render nonce is modelled as a bump counter. -/
structure Item (ι : Type) where
  index : ι
  reuseID : String
  zIndex : ℚ
  contentLayout : Layout
  opacity : ℚ
  renderNonce : ℕ
deriving DecidableEq, Repr

/-- The subclass-provided and configured inputs of a `LayoutSource`
(`LayoutSourceProps` plus the abstract methods). `getItemContentLayout` is the
subclass layout computation, which may throw (`Except.error`). -/
structure LSProps (ι : Type) where
  reuseID : Option String
  getReuseID : Option (ι → String)
  /-- `props.zIndex`, with `0` standing for unset (the source reads it with a
  JS truthiness check, conflating the two). -/
  zIndex : ℚ
  showDuration : ℚ
  shouldRenderItem : Item ι → ι → Layout → Bool
  getItemContentLayout : ι → Except String Layout
  id : String

/-- Trace events recording the observable processing steps of a layout source
update: an index retired to the pool (`queueItem` success/miss), an addition
satisfied by dequeuing or creating, the abort on a failed dequeue with
creation disabled, the start of the update-all-visible pass, an item update
(`willShowItem` + `setVisibleItem`), and logged errors. -/
inductive LSEv (ι : Type) where
  | queuedItem (i : ι)
  | queueMiss (i : ι)
  | dequeued (i : ι)
  | created (i : ι)
  | updatedItem (i : ι)
  | updateAllPass
  | logError (msg : String)
  | logDequeueMismatch (expected actual : String)
deriving DecidableEq, Repr

/-- The mutable state of a `LayoutSource` together with the host view's
needs-render flag. The visible map and the per-reuseID pools are association
lists. -/
structure LSState (ι : Type) where
  itemQueues : List (String × List (Item ι))
  visible : List (ι × Item ι)
  updating : Bool
  /-- `_zIndex`, set by `configure`. -/
  zIndex : ℚ
  /-- The host view's `needsRender` flag (set via `view.setNeedsRender()`). -/
  viewNeedsRender : Bool
  events : List (LSEv ι)
deriving DecidableEq, Repr

/-- Modelled from the spec: `getLazyArray` (util, not under `src/`) reads the
array stored under a key, treating a missing key as empty. -/
def qGet : List (String × List (Item ι)) → String → List (Item ι)
  | [], _ => []
  | pr :: rest, r => if pr.1 = r then pr.2 else qGet rest r

/-- Store a (possibly new) array under a key, replacing the first occurrence
or appending the key (the mutation `getLazyArray` performs on a missing key). -/
def qSet (qs : List (String × List (Item ι))) (r : String) (l : List (Item ι)) :
    List (String × List (Item ι)) :=
  match qs with
  | [] => [(r, l)]
  | pr :: rest => if pr.1 = r then (r, l) :: rest else pr :: qSet rest r l

/-- Association-list lookup for the visible-index map. -/
def lookupVisible : List (ι × Item ι) → ι → Option (Item ι)
  | [], _ => none
  | pr :: rest, i => if pr.1 = i then some pr.2 else lookupVisible rest i

/-- Modelled from the spec: the subclass's visible-index map
(`getVisibleItem`, spec §3 "a map of visible index → Item Record"). -/
def getVisibleItem (s : LSState ι) (i : ι) : Option (Item ι) :=
  lookupVisible s.visible i

/-- Insert or replace a binding in the visible-index map. -/
def insVisible (i : ι) (it : Item ι) : List (ι × Item ι) → List (ι × Item ι)
  | [] => [(i, it)]
  | pr :: rest => if pr.1 = i then (i, it) :: rest else pr :: insVisible i it rest

/-- Modelled from the spec: `setVisibleItem(index, item | undefined)` on the
subclass's visible-index map; `some` inserts or replaces, `none` removes. -/
def setVisibleItem (s : LSState ι) (i : ι) (item : Option (Item ι)) : LSState ι :=
  match item with
  | some it => { s with visible := insVisible i it s.visible }
  | none => { s with visible := s.visible.filter (fun pr => !(pr.1 == i)) }

/-- `getReuseID(index)` (LayoutSource.ts lines 667-675). -/
def computeReuseID (props : LSProps ι) (i : ι) : String :=
  match props.getReuseID with
  | some f => f i
  | none =>
    match props.reuseID with
    | some r => r
    | none => props.id

/-- `get zIndex()` (LayoutSource.ts lines 161-163): `props.zIndex || _zIndex`. -/
def zIndexOf (props : LSProps ι) (s : LSState ι) : ℚ :=
  if props.zIndex ≠ 0 then props.zIndex else s.zIndex

/-- `queueItem(index)` (LayoutSource.ts lines 779-794): hide the visible item
at the index, set its opacity to 0 and, when its reuseID is non-empty, push it
onto that reuseID's pool. -/
def queueItem (s : LSState ι) (i : ι) : LSState ι × Bool :=
  match getVisibleItem s i with
  | none => ({ s with events := s.events ++ [LSEv.queueMiss i] }, false)
  | some item =>
    let s1 := { s with events := s.events ++ [LSEv.queuedItem i] }
    let s2 := setVisibleItem s1 i none
    let item1 := { item with opacity := 0 }
    let pushed := qSet s2.itemQueues item1.reuseID (qGet s2.itemQueues item1.reuseID ++ [item1])
    let s3 := if item1.reuseID ≠ "" then { s2 with itemQueues := pushed } else s2
    (s3, true)

/-- `_dequeueItem(reuseID)` (LayoutSource.ts lines 765-777): pop the
most-recently-queued record of the given reuseID's pool (JS `Array.pop`),
logging (non-fatally) if the popped record's stored reuseID disagrees. -/
def dequeueItemRaw (s : LSState ι) (r : String) : LSState ι × Option (Item ι) :=
  let q := qGet s.itemQueues r
  let s1 := { s with itemQueues := qSet s.itemQueues r q.dropLast }
  match q.getLast? with
  | none => (s1, none)
  | some it =>
    if it.reuseID ≠ r then
      ({ s1 with events := s1.events ++ [LSEv.logDequeueMismatch r it.reuseID] }, some it)
    else (s1, some it)

/-- `updateItem(item, index, options?)` (LayoutSource.ts lines 703-755):
recompute the content layout (which may throw — in that case no state was
mutated yet), default the z-index, set the opacity (instantly unless the item
is new and `showDuration > 0`) and rebind the item in the visible map. -/
def updateItem (props : LSProps ι) (s : LSState ι) (item : Item ι) (i : ι)
    (isNew : Bool) : Except String (LSState ι × Item ι) :=
  match props.getItemContentLayout i with
  | .error e => .error e
  | .ok layout =>
    let item1 := { item with contentLayout := layout }
    let item2 := if item1.zIndex = 0 then { item1 with zIndex := zIndexOf props s } else item1
    let showNow := if isNew then decide (props.showDuration ≤ 0) else true
    let item3 := if showNow then { item2 with opacity := 1 } else item2
    let s1 := { s with events := s.events ++ [LSEv.updatedItem i] }
    .ok (setVisibleItem s1 i (some item3), item3)

/-- `createItem(index, view)` (LayoutSource.ts lines 677-701): allocate a new
record with zero layout and opacity 0, assign the computed reuseID, then run
`updateItem` with `isNew`. On a throw the state at the throw point is
returned in the error. -/
def createItem (props : LSProps ι) (s : LSState ι) (i : ι) :
    Except (LSState ι × String) (LSState ι) :=
  let item : Item ι :=
    { index := i, reuseID := computeReuseID props i, zIndex := zIndexOf props s,
      contentLayout := ⟨zeroPoint, zeroPoint⟩, opacity := 0, renderNonce := 0 }
  let s1 := { s with events := s.events ++ [LSEv.created i] }
  match updateItem props s1 item i true with
  | .error e => .error (s1, e)
  | .ok (s2, _) => .ok s2

/-- `dequeueItem(index)` (LayoutSource.ts lines 859-875): compute the target
reuseID, pop a pooled record, rebind and relayout it via `updateItem`, and
bump the render nonce when `shouldRenderItem` asks for a redraw (the record is
shared with the visible map, so the bump is mirrored there). On a throw the
state at the throw point (with the pop already applied) is in the error. -/
def dequeueItem (props : LSProps ι) (s : LSState ι) (i : ι) :
    Except (LSState ι × String) (LSState ι × Option (Item ι)) :=
  let r := computeReuseID props i
  let (s1, item?) := dequeueItemRaw s r
  match item? with
  | none => .ok (s1, none)
  | some item =>
    match updateItem props s1 item i false with
    | .error e => .error (s1, e)
    | .ok (s2, item2) =>
      if props.shouldRenderItem item2 item.index item.contentLayout then
        let item3 := { item2 with renderNonce := item2.renderNonce + 1 }
        .ok (setVisibleItem s2 i (some item3), some item3)
      else
        .ok (s2, some item2)

/-- The options of `updateItems` (LayoutSource.ts lines 804-818). -/
structure UpdOpts where
  queue : Bool
  dequeue : Bool
  create : Bool
  update : Bool
deriving DecidableEq, Repr

/-- One element of the `itemUpdates()` sequence (`IItemUpdate<T>`). -/
structure OpU (ι : Type) where
  add : Option ι
  remove : Option ι
deriving DecidableEq, Repr

/-- Outcome of processing a prefix of the add/remove sequence: normal
continuation, the early-return abort (failed dequeue with creation disabled),
or a thrown error with the state at the throw point. -/
inductive StepRes (ι : Type) where
  | ok (s : LSState ι)
  | abort (s : LSState ι)
  | err (s : LSState ι) (e : String)

/-- The body of the `updateItems` loop for one operation (LayoutSource.ts
lines 822-843): a removal (when queueing is enabled) retires the item,
otherwise an addition is satisfied by dequeuing (when enabled), then by
creating (when enabled), and otherwise aborts the whole update. -/
def processOp (props : LSProps ι) (opts : UpdOpts) (s : LSState ι) (op : OpU ι) :
    StepRes ι :=
  match op.remove, opts.queue with
  | some r, true => .ok (queueItem s r).1
  | _, _ =>
    match op.add with
    | none => .ok s
    | some a =>
      let deq : Except (LSState ι × String) (LSState ι × Option (Item ι)) :=
        if opts.dequeue then dequeueItem props s a else .ok (s, none)
      match deq with
      | .error (s1, e) => .err s1 e
      | .ok (s1, some _) => .ok s1
      | .ok (s1, none) =>
        if opts.create then
          match createItem props s1 a with
          | .ok s2 => .ok s2
          | .error (s2, e) => .err s2 e
        else .abort s1

/-- The `updateItems` loop over the whole `itemUpdates()` sequence. -/
def processOps (props : LSProps ι) (opts : UpdOpts) :
    List (OpU ι) → LSState ι → StepRes ι
  | [], s => .ok s
  | op :: rest, s =>
    match processOp props opts s op with
    | .ok s1 => processOps props opts rest s1
    | .abort s1 => .abort s1
    | .err s1 e => .err s1 e

/-- The update-all-visible pass (LayoutSource.ts lines 844-851): every
currently visible index has its item's content layout recomputed. -/
def updateAllGo (props : LSProps ι) :
    List ι → LSState ι → Except (LSState ι × String) (LSState ι)
  | [], s => .ok s
  | i :: rest, s =>
    match getVisibleItem s i with
    | none => updateAllGo props rest s
    | some item =>
      match updateItem props s item i false with
      | .error e => .error (s, e)
      | .ok (s1, _) => updateAllGo props rest s1

/-- `endUpdate(view)` (LayoutSource.ts lines 336-341), reached through both
`commitUpdate` and `cancelUpdate`: flush pending queue bookkeeping (a no-op)
and clear the updating flag. -/
def endUpdateLS (s : LSState ι) : LSState ι :=
  { s with updating := false }

/-- `updateItems(view, options?)` (LayoutSource.ts lines 804-857).
`beginUpdate` throws on reentrancy (propagated, not caught). The add/remove
sequence is processed in order; the abort path cancels and marks the view
render-needed; a thrown error is logged and the update cancelled; otherwise
the optional update-all pass (marked by an `LSEv.updateAllPass` event) runs
and the update commits. -/
def updateItems (props : LSProps ι) (opts : UpdOpts) (ops : List (OpU ι))
    (s : LSState ι) : Except String (LSState ι) :=
  if s.updating then .error "Already updating"
  else
    let s0 := { s with updating := true }
    match processOps props opts ops s0 with
    | .abort s1 => .ok { endUpdateLS s1 with viewNeedsRender := true }
    | .err s1 e => .ok (endUpdateLS { s1 with events := s1.events ++ [LSEv.logError e] })
    | .ok s1 =>
      if opts.update then
        let s2 := { s1 with events := s1.events ++ [LSEv.updateAllPass] }
        match updateAllGo props (s2.visible.map (fun pr => pr.1)) s2 with
        | .error (s3, e) =>
          .ok (endUpdateLS { s3 with events := s3.events ++ [LSEv.logError e] })
        | .ok s3 => .ok (endUpdateLS s3)
      else .ok (endUpdateLS s1)

/-- An event marking the processing of an addition (dequeue or create). -/
def isAddEv : LSEv ι → Bool
  | .dequeued _ => true
  | .created _ => true
  | _ => false

/-- An event marking the processing of a removal. -/
def isRemoveEv : LSEv ι → Bool
  | .queuedItem _ => true
  | _ => false

/-- A trace in which every removal-processing event precedes every
addition-processing event (no addition is processed before a later removal). -/
def removalsFirst : List (LSEv ι) → Bool
  | [] => true
  | e :: rest =>
    (!(isAddEv e) || rest.all fun x => !(isRemoveEv x)) && removalsFirst rest

/-- The state `s1` extends the event trace of `s` without entering the
update-all-visible pass. -/
def evExt (s s1 : LSState ι) : Prop :=
  ∃ t, s1.events = s.events ++ t ∧ LSEv.updateAllPass ∉ t

/-- The event belongs to the processing of the given add/remove operation:
removal-processing events carry the operation's remove index,
addition-processing events its add index, and a dequeue-mismatch log can only
arise while the operation's addition is being dequeued; neither the
update-pass marker nor a caught-error log belongs to any operation. -/
def evForOp (op : OpU ι) : LSEv ι → Bool
  | .queuedItem i => op.remove == some i
  | .queueMiss i => op.remove == some i
  | .dequeued i => op.add == some i
  | .created i => op.add == some i
  | .updatedItem i => op.add == some i
  | .updateAllPass => false
  | .logError _ => false
  | .logDequeueMismatch _ _ => op.add.isSome

/-- The state `s1` extends the event trace of `s` by a segment all of whose
events satisfy `P`. -/
def evSeg (P : LSEv ι → Bool) (s s1 : LSState ι) : Prop :=
  ∃ t, s1.events = s.events ++ t ∧ ∀ e ∈ t, P e = true

end LayoutSrc

namespace Evergrid

/-! Concrete inputs used by counterexamples and witnesses. -/

/-- A concrete coordinator state: identity scale, anchor at the origin, no
offsets, a 300×300 container, one registered layout source. -/
def baseState : EState :=
  { locationOffsetBase := ⟨0, 0⟩, scale := ⟨1, 1⟩, anchor := ⟨0, 0⟩,
    viewOffset := ⟨0, 0⟩, containerSize := ⟨300, 300⟩, panVelocity := ⟨0, 0⟩,
    panStarted := false, panDefaultPrevented := false, panTargetIsViewOffset := true,
    hasScale := false, hasContainerSize := false, updateDepth := 0,
    updateTimer := false, descelerationAnimation := none, interactionHandle := false,
    layoutSources := [7], events := [] }

/-- The coordinator state `s1` extends the event trace of `s` without starting
a decay animation. -/
def evStep (s s1 : EState) : Prop :=
  ∃ t, s1.events = s.events ++ t ∧ Ev.startDecay ∉ t

end Evergrid

namespace LayoutSrc

/-- A concrete item record bound to index 1 with reuseID `"src"`. -/
def cItem1 : Item ℕ :=
  { index := 1, reuseID := "src", zIndex := 0,
    contentLayout := ⟨⟨0, 0⟩, ⟨1, 1⟩⟩, opacity := 1, renderNonce := 0 }

/-- Concrete layout-source props: default reuseID `"src"` (the source id), a
total subclass layout function. -/
def cProps : LSProps ℕ :=
  { reuseID := none, getReuseID := none, zIndex := 0, showDuration := 150,
    shouldRenderItem := fun _ _ _ => true,
    getItemContentLayout := fun i => .ok ⟨⟨(i : ℚ), 0⟩, ⟨1, 1⟩⟩, id := "src" }

/-- Concrete props whose subclass layout computation throws at index 0. -/
def cPropsBoom : LSProps ℕ :=
  { cProps with
    getItemContentLayout := fun i =>
      if i = 0 then .error "boom" else .ok ⟨⟨(i : ℚ), 0⟩, ⟨1, 1⟩⟩ }

/-- A concrete layout-source state: empty pools, index 1 visible. -/
def cLS : LSState ℕ :=
  { itemQueues := [], visible := [(1, cItem1)], updating := false, zIndex := 3,
    viewNeedsRender := false, events := [] }

/-- A concrete pooled item with reuseID `"A"`. -/
def cItemA : Item ℕ :=
  { index := 2, reuseID := "A", zIndex := 1,
    contentLayout := ⟨⟨0, 0⟩, ⟨1, 1⟩⟩, opacity := 0, renderNonce := 0 }

/-- A concrete item whose reuseID is the empty string (never pooled). -/
def cItemE : Item ℕ :=
  { index := 4, reuseID := "", zIndex := 1,
    contentLayout := ⟨⟨0, 0⟩, ⟨1, 1⟩⟩, opacity := 1, renderNonce := 0 }

/-- Concrete props computing reuseID `"A"` for every index. -/
def cPropsA : LSProps ℕ :=
  { cProps with reuseID := some "A" }

/-- A concrete state with one `"A"`-pooled record and an empty-reuseID
visible item at index 4. -/
def cLSA : LSState ℕ :=
  { itemQueues := [("A", [cItemA])], visible := [(4, cItemE)], updating := false,
    zIndex := 3, viewNeedsRender := false, events := [] }

end LayoutSrc

namespace Evergrid

/-! ## Claim C1 — content/container round trip -/

/-- C1 (counterexample): with the identity scale, zero offsets and the anchor
at the origin, converting the content point `{1,1}` to container coordinates
with `getContainerLocation` and back with `getLocation` yields `{-1,-1}`, not
the original point — an error of magnitude 2, far beyond floating-point
tolerance. -/
theorem claim1_counterexample :
    getLocation baseState (getContainerLocation baseState ⟨1, 1⟩ none) = ⟨-1, -1⟩ ∧
    getLocation baseState (getContainerLocation baseState ⟨1, 1⟩ none) ≠ ⟨1, 1⟩ ∧
    (1 : ℚ) - (getLocation baseState (getContainerLocation baseState ⟨1, 1⟩ none)).x = 2 := by
  norm_num [getLocation, getContainerLocation, containerOriginOffset, baseState,
    IPoint.mk.injEq]

/-- C1 (amended): the `getContainerLocation`/`getLocation` round trip is not
the identity. For every scale with non-zero components it equals the affine
map `p ↦ -p - 2·locationOffsetBase - (viewOffset - 2·containerOriginOffset)/scale`
componentwise, exactly; it returns the original point only at the unique
fixed point of this map. -/
theorem claim1_roundtrip_formula (s : EState) (p : IPoint)
    (hx : s.scale.x ≠ 0) (hy : s.scale.y ≠ 0) :
    getLocation s (getContainerLocation s p none) =
      ⟨-p.x - 2 * s.locationOffsetBase.x
          - (s.viewOffset.x - 2 * (containerOriginOffset s).x) / s.scale.x,
       -p.y - 2 * s.locationOffsetBase.y
          - (s.viewOffset.y - 2 * (containerOriginOffset s).y) / s.scale.y⟩ := by
  rw [getLocation, if_neg (by push_neg; exact ⟨hx, hy⟩)]
  simp only [getContainerLocation, IPoint.mk.injEq]
  constructor <;> (field_simp; ring)

/-- C1 (witness): the amended round-trip formula evaluated at the concrete
state `baseState` and the point `{2,3}` gives `{-2,-3}`. -/
theorem claim1_witness :
    baseState.scale.x ≠ 0 ∧ baseState.scale.y ≠ 0 ∧
    getLocation baseState (getContainerLocation baseState ⟨2, 3⟩ none) = ⟨-2, -3⟩ :=
  ⟨by norm_num [baseState], by norm_num [baseState],
    (claim1_roundtrip_formula baseState ⟨2, 3⟩ (by norm_num [baseState])
        (by norm_num [baseState])).trans
      (by norm_num [baseState, containerOriginOffset, IPoint.mk.injEq])⟩

/-! ## Claim C6 — update() first-valid-value latches -/

/-- C6: `update()` delivers no `setNeedsUpdate` to any layout source until a
container size of at least 1×1 and a non-zero scale have each been observed
(at least) once; each latch flips only from unsatisfied to satisfied (never
re-armed — `update` is the only operation that writes the latches); once both
are satisfied, every registered layout source is notified on each call. -/
theorem claim6_update_latches (s : EState) :
    ((update s).hasContainerSize = true ↔
        (s.hasContainerSize = true ∨ (1 ≤ s.containerSize.x ∧ 1 ≤ s.containerSize.y))) ∧
    ((s.hasContainerSize = true ∨ (1 ≤ s.containerSize.x ∧ 1 ≤ s.containerSize.y)) →
        ((update s).hasScale = true ↔
          (s.hasScale = true ∨ (s.scale.x ≠ 0 ∧ s.scale.y ≠ 0)))) ∧
    (¬(s.hasContainerSize = true ∨ (1 ≤ s.containerSize.x ∧ 1 ≤ s.containerSize.y)) →
        (update s).hasScale = s.hasScale) ∧
    (update s).events = s.events ++ [Ev.updateCall] ++
      (if (s.hasContainerSize = true ∨ (1 ≤ s.containerSize.x ∧ 1 ≤ s.containerSize.y)) ∧
          (s.hasScale = true ∨ (s.scale.x ≠ 0 ∧ s.scale.y ≠ 0))
        then s.layoutSources.map Ev.notify else []) := by
  cases hcs : s.hasContainerSize <;> cases hsc : s.hasScale <;>
    by_cases hSx : 1 ≤ s.containerSize.x <;> by_cases hSy : 1 ≤ s.containerSize.y <;>
    by_cases hZx : s.scale.x = 0 <;> by_cases hZy : s.scale.y = 0 <;>
    simp [update, hcs, hsc, hSx, hSy, hZx, hZy]

/-- C6 (witness): starting from the unlatched concrete state (whose container
size is 300×300 and scale 1×1), `update` satisfies both latches and notifies
layout source 7. -/
theorem claim6_witness :
    ((update baseState).hasContainerSize = true ↔
        (baseState.hasContainerSize = true ∨
          (1 ≤ baseState.containerSize.x ∧ 1 ≤ baseState.containerSize.y))) ∧
    ((baseState.hasContainerSize = true ∨
        (1 ≤ baseState.containerSize.x ∧ 1 ≤ baseState.containerSize.y)) →
        ((update baseState).hasScale = true ↔
          (baseState.hasScale = true ∨
            (baseState.scale.x ≠ 0 ∧ baseState.scale.y ≠ 0)))) ∧
    (¬(baseState.hasContainerSize = true ∨
        (1 ≤ baseState.containerSize.x ∧ 1 ≤ baseState.containerSize.y)) →
        (update baseState).hasScale = baseState.hasScale) ∧
    (update baseState).events = baseState.events ++ [Ev.updateCall] ++
      (if (baseState.hasContainerSize = true ∨
            (1 ≤ baseState.containerSize.x ∧ 1 ≤ baseState.containerSize.y)) ∧
          (baseState.hasScale = true ∨
            (baseState.scale.x ≠ 0 ∧ baseState.scale.y ≠ 0))
        then baseState.layoutSources.map Ev.notify else []) :=
  claim6_update_latches baseState

/-! ## Claim C2 — nested begin/end update batching -/

theorem beginN_eq (n : ℕ) (s : EState) :
    beginN n s = { s with updateDepth := s.updateDepth + n } := by
  induction n generalizing s with
  | zero => simp [beginN]
  | succ n ih =>
    rw [beginN, ih]
    simp [beginUpdate]
    omega

theorem endUpdate_of_two_le (s : EState) (h : 2 ≤ s.updateDepth) :
    endUpdate s = .ok { s with updateDepth := s.updateDepth - 1 } := by
  rw [endUpdate, if_neg (by omega), if_pos (by omega)]

theorem endN_of_lt_depth (k : ℕ) (s : EState) (h : (k : ℤ) + 1 ≤ s.updateDepth) :
    endN k s = .ok { s with updateDepth := s.updateDepth - k } := by
  induction k generalizing s with
  | zero => simp [endN]
  | succ k ih =>
    rw [endN, endUpdate_of_two_le s (by omega), Except.bind]
    rw [ih { s with updateDepth := s.updateDepth - 1 } (by simp; omega)]
    simp
    omega

theorem endUpdate_at_one (s : EState) (h : s.updateDepth = 1)
    (ht : s.updateTimer = false) :
    endUpdate s = .ok (update { s with updateDepth := 0 }) := by
  simp [endUpdate, scheduleUpdate, h, ht]

theorem endN_add (a b : ℕ) (s : EState) :
    endN (a + b) s = (endN a s).bind (endN b) := by
  induction a generalizing s with
  | zero =>
    rw [Nat.zero_add]
    rfl
  | succ a ih =>
    have : a + 1 + b = (a + b) + 1 := by omega
    rw [this, endN, endN]
    cases endUpdate s with
    | error e => simp [Except.bind]
    | ok s1 => simp [Except.bind, ih]

theorem update_count_updateCall (s : EState) :
    (update s).events.count Ev.updateCall = s.events.count Ev.updateCall + 1 := by
  have hn : ∀ l : List ℕ, (l.map Ev.notify).count Ev.updateCall = 0 := by
    intro l
    rw [List.count_eq_zero]
    intro h
    obtain ⟨i, _, hi⟩ := List.mem_map.mp h
    exact absurd hi.symm (by simp)
  have h1 : ∀ l : List Ev, (l ++ [Ev.updateCall]).count Ev.updateCall =
      l.count Ev.updateCall + 1 := by
    intro l
    rw [List.count_append]
    simp
  have h2 : ∀ (l : List Ev) (ns : List ℕ),
      (l ++ Ev.updateCall :: ns.map Ev.notify).count Ev.updateCall =
        l.count Ev.updateCall + 1 := by
    intro l ns
    rw [List.count_append, List.count_cons_self, hn]
  simp only [update]
  split
  · exact h1 s.events
  · split
    · exact h1 s.events
    · simp only [List.append_assoc, List.cons_append, List.nil_append] at h2 ⊢
      exact h2 s.events s.layoutSources

/-- C2: a nested sequence of N `beginUpdate` calls followed by N `endUpdate`
calls, starting at depth 0 with no pending timer, succeeds and invokes
`update()` exactly once, on the final `endUpdate` (the depth 1→0 transition):
after the first N−1 `endUpdate` calls the event trace is untouched, and the
final call adds exactly one `update()` invocation. -/
theorem claim2_nested_update_batching (s : EState) (N : ℕ) (hN : 1 ≤ N)
    (hd : s.updateDepth = 0) (ht : s.updateTimer = false) :
    ∃ s1 s2,
      endN (N - 1) (beginN N s) = .ok s1 ∧
      s1.events = s.events ∧
      endUpdate s1 = .ok s2 ∧
      s2.events.count Ev.updateCall = s.events.count Ev.updateCall + 1 ∧
      endN N (beginN N s) = .ok s2 := by
  have hb : beginN N s = { s with updateDepth := (N : ℤ) } := by
    rw [beginN_eq]
    rw [hd]
    simp
  have hdep : ((N : ℤ) - ((N - 1 : ℕ) : ℤ)) = 1 := by omega
  have h1 : endN (N - 1) (beginN N s) = .ok { s with updateDepth := 1 } := by
    rw [hb]
    have hh := endN_of_lt_depth (N - 1) { s with updateDepth := (N : ℤ) }
      (by simp; omega)
    simp only at hh
    rw [hh, hdep]
  have h2 : endUpdate { s with updateDepth := (1 : ℤ) } =
      .ok (update { s with updateDepth := 0 }) := by
    have hh := endUpdate_at_one { s with updateDepth := (1 : ℤ) } rfl ht
    simpa using hh
  refine ⟨{ s with updateDepth := 1 }, update { s with updateDepth := 0 },
    h1, rfl, h2, ?_, ?_⟩
  · rw [update_count_updateCall]
  · have hsplit : N = (N - 1) + 1 := by omega
    have hb1 : ∀ x : EState, (Except.ok (ε := String) x).bind (endN 1) = endN 1 x :=
      fun _ => rfl
    have hb2 : ∀ x : EState, endN 1 x = (endUpdate x).bind (endN 0) :=
      fun _ => rfl
    nth_rewrite 1 [hsplit]
    rw [endN_add, h1, hb1, hb2, h2]
    rfl

/-- C2 (witness): three nested `beginUpdate` calls followed by three
`endUpdate` calls on the concrete base state trigger exactly one `update()`. -/
theorem claim2_witness :
    1 ≤ 3 ∧ baseState.updateDepth = 0 ∧ baseState.updateTimer = false ∧
    ∃ s1 s2,
      endN (3 - 1) (beginN 3 baseState) = .ok s1 ∧
      s1.events = baseState.events ∧
      endUpdate s1 = .ok s2 ∧
      s2.events.count Ev.updateCall = baseState.events.count Ev.updateCall + 1 ∧
      endN 3 (beginN 3 baseState) = .ok s2 :=
  ⟨by decide, rfl, rfl, claim2_nested_update_batching baseState 3 (by decide) rfl rfl⟩

/-! ## Claim C7 — pan release: decay threshold -/

theorem evStep_trans {a b c : EState} (h1 : evStep a b) (h2 : evStep b c) :
    evStep a c := by
  obtain ⟨t1, e1, n1⟩ := h1
  obtain ⟨t2, e2, n2⟩ := h2
  exact ⟨t1 ++ t2, by rw [e2, e1, List.append_assoc], by simp [n1, n2]⟩

theorem update_pres (s : EState) :
    (update s).viewOffset = s.viewOffset ∧ (update s).panVelocity = s.panVelocity ∧
    (update s).descelerationAnimation = s.descelerationAnimation ∧
    (update s).panTargetIsViewOffset = s.panTargetIsViewOffset ∧
    evStep s (update s) := by
  simp only [update]
  split
  · exact ⟨rfl, rfl, rfl, rfl, [Ev.updateCall], rfl, by simp⟩
  · split
    · exact ⟨rfl, rfl, rfl, rfl, [Ev.updateCall], rfl, by simp⟩
    · refine ⟨rfl, rfl, rfl, rfl,
        Ev.updateCall :: s.layoutSources.map Ev.notify, by simp, by simp⟩

theorem endUpdateT_pres (s : EState) :
    (endUpdateT s).viewOffset = s.viewOffset ∧
    (endUpdateT s).panVelocity = s.panVelocity ∧
    (endUpdateT s).descelerationAnimation = s.descelerationAnimation ∧
    (endUpdateT s).panTargetIsViewOffset = s.panTargetIsViewOffset ∧
    evStep s (endUpdateT s) := by
  by_cases h1 : s.updateDepth - 1 < 0
  · simp [endUpdateT, endUpdate, h1, evStep]
  · by_cases h2 : s.updateDepth - 1 > 0
    · simp [endUpdateT, endUpdate, h1, h2, evStep]
    · have hu := update_pres { s with updateDepth := s.updateDepth - 1 }
      simp only [endUpdateT, endUpdate, if_neg h1, if_neg h2, scheduleUpdate]
      by_cases ht : s.updateTimer
      · simp [ht, evStep]
      · simp only [ht, Bool.false_eq_true, if_false]
        exact hu

theorem setNeedsUpdate_pres (s : EState) :
    (setNeedsUpdate s).viewOffset = s.viewOffset ∧
    (setNeedsUpdate s).panVelocity = s.panVelocity ∧
    (setNeedsUpdate s).descelerationAnimation = s.descelerationAnimation ∧
    (setNeedsUpdate s).panTargetIsViewOffset = s.panTargetIsViewOffset ∧
    evStep s (setNeedsUpdate s) := by
  have h := endUpdateT_pres (beginUpdate s)
  simpa [setNeedsUpdate, beginUpdate, evStep] using h

theorem endT_setNeeds_pres (R : EState) :
    (endUpdateT (setNeedsUpdate R)).viewOffset = R.viewOffset ∧
    (endUpdateT (setNeedsUpdate R)).panVelocity = R.panVelocity ∧
    (endUpdateT (setNeedsUpdate R)).descelerationAnimation = R.descelerationAnimation ∧
    (endUpdateT (setNeedsUpdate R)).panTargetIsViewOffset = R.panTargetIsViewOffset ∧
    evStep R (endUpdateT (setNeedsUpdate R)) := by
  obtain ⟨b1, b2, b3, b4, b5⟩ := setNeedsUpdate_pres R
  obtain ⟨c1, c2, c3, c4, c5⟩ := endUpdateT_pres (setNeedsUpdate R)
  exact ⟨c1.trans b1, c2.trans b2, c3.trans b3, c4.trans b4, evStep_trans b5 c5⟩

theorem transfer_pres (s : EState) :
    (transferViewOffsetToLocation s).viewOffset = Evergrid.zeroPoint ∧
    (transferViewOffsetToLocation s).panVelocity = s.panVelocity ∧
    (transferViewOffsetToLocation s).descelerationAnimation = s.descelerationAnimation ∧
    (transferViewOffsetToLocation s).panTargetIsViewOffset = s.panTargetIsViewOffset ∧
    evStep s (transferViewOffsetToLocation s) := by
  have h := endT_setNeeds_pres
    { beginUpdate s with
      viewOffset := zeroPoint,
      locationOffsetBase :=
        ⟨(beginUpdate s).locationOffsetBase.x + (beginUpdate s).viewOffset.x / (beginUpdate s).scale.x,
         (beginUpdate s).locationOffsetBase.y + (beginUpdate s).viewOffset.y / (beginUpdate s).scale.y⟩ }
  exact ⟨h.1.trans rfl, h.2.1.trans rfl, h.2.2.1.trans rfl, h.2.2.2.1.trans rfl,
    h.2.2.2.2⟩

theorem onEndDeceleration_pres (s : EState) :
    (onEndDeceleration s).viewOffset = Evergrid.zeroPoint ∧
    (onEndDeceleration s).descelerationAnimation = none ∧
    (onEndDeceleration s).panVelocity = s.panVelocity ∧
    evStep s (onEndDeceleration s) := by
  obtain ⟨t1, t2, t3, t4, t5⟩ := transfer_pres s
  cases hval : (transferViewOffsetToLocation s).panTargetIsViewOffset with
  | true =>
    refine ⟨?_, ?_, ?_, ?_⟩
    · simp only [onEndDeceleration, hval, if_true]
      exact (setNeedsUpdate_pres _).1.trans rfl
    · simp only [onEndDeceleration, hval, if_true]
    · simp only [onEndDeceleration, hval, if_true]
      exact ((setNeedsUpdate_pres _).2.1).trans t2
    · simp only [onEndDeceleration, hval, if_true]
      exact evStep_trans t5
        (evStep_trans ⟨[], by simp, by simp⟩ (setNeedsUpdate_pres _).2.2.2.2)
  | false =>
    refine ⟨?_, ?_, ?_, ?_⟩
    · simp only [onEndDeceleration, hval, Bool.false_eq_true, if_false]
      exact t1
    · simp only [onEndDeceleration, hval, Bool.false_eq_true, if_false]
    · simp only [onEndDeceleration, hval, Bool.false_eq_true, if_false]
      exact t2
    · simp only [onEndDeceleration, hval, Bool.false_eq_true, if_false]
      exact t5

/-- C7: on pan-gesture end with the default pan target, when `snapToLocation`
declines or is absent, a decay animation (seeded with the pan velocity) is
started if and only if the release velocity's magnitude reaches `kPanSpeedMin`
(0.001) on at least one axis; otherwise the pan finalizes immediately — no
animation, the view offset merged and zeroed, no decay-start event. -/
theorem claim7_decay_threshold (snap : Option (ScrollInfo → Option PartialPoint))
    (s : EState)
    (h1 : s.panTargetIsViewOffset = true)
    (h2 : s.panDefaultPrevented = false)
    (h3 : snap = none ∨ ∃ f, snap = some f ∧ f (scrollInfoOf s) = none) :
    ((kPanSpeedMin ≤ |s.panVelocity.x| ∨ kPanSpeedMin ≤ |s.panVelocity.y|) →
        (onEndPan snap s).descelerationAnimation =
          some (AnimationDesc.decay s.panVelocity) ∧
        (onEndPan snap s).events = s.events ++ [Ev.startDecay] ∧
        (onEndPan snap s).panVelocity = zeroPoint) ∧
    (¬(kPanSpeedMin ≤ |s.panVelocity.x| ∨ kPanSpeedMin ≤ |s.panVelocity.y|) →
        (onEndPan snap s).descelerationAnimation = none ∧
        (onEndPan snap s).viewOffset = zeroPoint ∧
        (onEndPan snap s).panVelocity = zeroPoint ∧
        evStep s (onEndPan snap s)) ∧
    ((∃ v, (onEndPan snap s).descelerationAnimation = some (AnimationDesc.decay v)) ↔
        (kPanSpeedMin ≤ |s.panVelocity.x| ∨ kPanSpeedMin ≤ |s.panVelocity.y|)) := by
  have hred : onEndPan snap s =
      (if |s.panVelocity.x| < kPanSpeedMin ∧ |s.panVelocity.y| < kPanSpeedMin then
        { onEndDeceleration { s with panStarted := false } with panVelocity := zeroPoint }
      else
        { s with
          panStarted := false
          descelerationAnimation := some (AnimationDesc.decay s.panVelocity)
          interactionHandle := true
          events := s.events ++ [Ev.startDecay]
          panVelocity := zeroPoint }) := by
    rcases h3 with h | ⟨f, hf, hval⟩
    · subst h
      simp [onEndPan, h1, h2]
      by_cases hz2 : |s.panVelocity.x| < kPanSpeedMin ∧ |s.panVelocity.y| < kPanSpeedMin <;>
        simp [hz2]
    · subst hf
      have hsi2 : scrollInfoOf
          { s with
            panStarted := false
            panDefaultPrevented := false
            panTargetIsViewOffset := true } = scrollInfoOf s := rfl
      simp [onEndPan, h1, h2]
      rw [hsi2, hval]
      by_cases hz2 : |s.panVelocity.x| < kPanSpeedMin ∧ |s.panVelocity.y| < kPanSpeedMin <;>
        simp [hz2]
  rw [hred]
  clear hred
  by_cases hz : |s.panVelocity.x| < kPanSpeedMin ∧ |s.panVelocity.y| < kPanSpeedMin
  · have hnc : ¬(kPanSpeedMin ≤ |s.panVelocity.x| ∨ kPanSpeedMin ≤ |s.panVelocity.y|) := by
      push_neg
      exact hz
    obtain ⟨d1, d2, d3, d4⟩ := onEndDeceleration_pres { s with panStarted := false }
    refine ⟨fun hcc => absurd hcc hnc, fun _ => ⟨?_, ?_, ?_, ?_⟩, ?_⟩
    · rw [if_pos hz]
      exact d2
    · rw [if_pos hz]
      exact d1
    · rw [if_pos hz]
    · rw [if_pos hz]
      exact d4
    · constructor
      · rintro ⟨v, hv⟩
        rw [if_pos hz] at hv
        have hv2 : (onEndDeceleration { s with panStarted := false }).descelerationAnimation =
            some (AnimationDesc.decay v) := hv
        rw [d2] at hv2
        cases hv2
      · intro hcc
        exact absurd hcc hnc
  · have hcc : kPanSpeedMin ≤ |s.panVelocity.x| ∨ kPanSpeedMin ≤ |s.panVelocity.y| := by
      rcases not_and_or.mp hz with h | h
      · exact Or.inl (not_lt.mp h)
      · exact Or.inr (not_lt.mp h)
    refine ⟨fun _ => ⟨?_, ?_, ?_⟩, fun hn => absurd hcc hn, ?_⟩
    · rw [if_neg hz]
    · rw [if_neg hz]
    · rw [if_neg hz]
    · exact ⟨fun _ => hcc, fun _ => ⟨s.panVelocity, by rw [if_neg hz]⟩⟩

/-- C7 (witness): the claimed threshold behavior instantiated at the concrete
state with release velocity `{-0.002, 0}` and no snap callback. -/
theorem claim7_witness :
    ({ baseState with panVelocity := ⟨-2/1000, 0⟩ } : EState).panTargetIsViewOffset = true ∧
    ({ baseState with panVelocity := ⟨-2/1000, 0⟩ } : EState).panDefaultPrevented = false ∧
    (((kPanSpeedMin ≤ |({ baseState with panVelocity := ⟨-2/1000, 0⟩ } : EState).panVelocity.x| ∨
        kPanSpeedMin ≤ |({ baseState with panVelocity := ⟨-2/1000, 0⟩ } : EState).panVelocity.y|) →
        (onEndPan none { baseState with panVelocity := ⟨-2/1000, 0⟩ }).descelerationAnimation =
          some (AnimationDesc.decay ({ baseState with panVelocity := ⟨-2/1000, 0⟩ } : EState).panVelocity) ∧
        (onEndPan none { baseState with panVelocity := ⟨-2/1000, 0⟩ }).events =
          ({ baseState with panVelocity := ⟨-2/1000, 0⟩ } : EState).events ++ [Ev.startDecay] ∧
        (onEndPan none { baseState with panVelocity := ⟨-2/1000, 0⟩ }).panVelocity = zeroPoint) ∧
      (¬(kPanSpeedMin ≤ |({ baseState with panVelocity := ⟨-2/1000, 0⟩ } : EState).panVelocity.x| ∨
          kPanSpeedMin ≤ |({ baseState with panVelocity := ⟨-2/1000, 0⟩ } : EState).panVelocity.y|) →
        (onEndPan none { baseState with panVelocity := ⟨-2/1000, 0⟩ }).descelerationAnimation = none ∧
        (onEndPan none { baseState with panVelocity := ⟨-2/1000, 0⟩ }).viewOffset = zeroPoint ∧
        (onEndPan none { baseState with panVelocity := ⟨-2/1000, 0⟩ }).panVelocity = zeroPoint ∧
        evStep { baseState with panVelocity := ⟨-2/1000, 0⟩ }
          (onEndPan none { baseState with panVelocity := ⟨-2/1000, 0⟩ })) ∧
      ((∃ v, (onEndPan none { baseState with panVelocity := ⟨-2/1000, 0⟩ }).descelerationAnimation =
          some (AnimationDesc.decay v)) ↔
        (kPanSpeedMin ≤ |({ baseState with panVelocity := ⟨-2/1000, 0⟩ } : EState).panVelocity.x| ∨
          kPanSpeedMin ≤ |({ baseState with panVelocity := ⟨-2/1000, 0⟩ } : EState).panVelocity.y|))) :=
  ⟨rfl, rfl,
    claim7_decay_threshold none { baseState with panVelocity := ⟨-2/1000, 0⟩ } rfl rfl (Or.inl rfl)⟩

/-! ## Claim C8 — scrollToOffset during a pan -/

/-- C8: a `scrollToOffset` call made while a pan gesture is in progress
returns no animation and leaves the whole coordinator state unchanged. -/
theorem claim8_scrollToOffset_noop_during_pan (s : EState) (o : ScrollOpts)
    (h : s.panStarted = true) :
    scrollToOffset s o = (s, none) := by
  rw [scrollToOffset, if_pos (by rw [h])]

/-- C8 (witness): a concrete animated scroll request during a pan is a no-op. -/
theorem claim8_witness :
    ({ baseState with panStarted := true } : EState).panStarted = true ∧
    scrollToOffset { baseState with panStarted := true }
      { offsetX := some 5, offsetY := none, animated := true, useTiming := false,
        springVelocity := none, manualStart := false } =
      ({ baseState with panStarted := true }, none) :=
  ⟨rfl, claim8_scrollToOffset_noop_during_pan { baseState with panStarted := true } _ rfl⟩

/-! ## Claim C10 — totality of the view→content conversions -/

/-- C10: `getLocation` and `unscaleVector` are total despite the division by
the scale: whenever a scale component is zero they return the zero point
instead of dividing. -/
theorem claim10_zero_scale_guard (s : EState) (p : IPoint)
    (h : s.scale.x = 0 ∨ s.scale.y = 0) :
    getLocation s p = zeroPoint ∧ unscaleVector s p = zeroPoint := by
  rw [getLocation, if_pos h, unscaleVector, if_pos h]
  exact ⟨rfl, rfl⟩

/-- C10 (witness): with `scale = {0, 1}` both conversions return the zero
point on a concrete input. -/
theorem claim10_witness :
    (({ baseState with scale := ⟨0, 1⟩ } : EState).scale.x = 0 ∨
      ({ baseState with scale := ⟨0, 1⟩ } : EState).scale.y = 0) ∧
    getLocation { baseState with scale := ⟨0, 1⟩ } ⟨8, 9⟩ = zeroPoint ∧
    unscaleVector { baseState with scale := ⟨0, 1⟩ } ⟨8, 9⟩ = zeroPoint :=
  ⟨Or.inl rfl, claim10_zero_scale_guard { baseState with scale := ⟨0, 1⟩ } ⟨8, 9⟩ (Or.inl rfl)⟩

end Evergrid

namespace LayoutSrc

variable {ι : Type} [DecidableEq ι]

/-! ## Layout-source infrastructure lemmas -/

theorem mem_of_getLast?_eq {α : Type} (l : List α) (a : α)
    (h : l.getLast? = some a) : a ∈ l := by
  have hm : a ∈ l.getLast? := by
    rw [h]
    rfl
  obtain ⟨hne, he⟩ := List.mem_getLast?_eq_getLast hm
  rw [he]
  exact List.getLast_mem hne

theorem qGet_qSet_self (qs : List (String × List (Item ι))) (r : String)
    (l : List (Item ι)) : qGet (qSet qs r l) r = l := by
  induction qs with
  | nil => simp [qGet, qSet]
  | cons pr rest ih =>
    by_cases h : pr.1 = r
    · simp [qGet, qSet, h]
    · simp [qGet, qSet, h, ih]

theorem qGet_qSet_ne (qs : List (String × List (Item ι))) (r r' : String)
    (l : List (Item ι)) (h : r' ≠ r) : qGet (qSet qs r l) r' = qGet qs r' := by
  have hrr : r ≠ r' := fun hh => h hh.symm
  induction qs with
  | nil => simp [qGet, qSet, hrr]
  | cons pr rest ih =>
    by_cases hp : pr.1 = r
    · subst hp
      simp [qGet, qSet, hrr]
    · by_cases hq : pr.1 = r'
      · simp only [qSet, if_neg hp]
        simp [qGet, hq]
      · simp [qGet, qSet, hp, hq, ih]

/-- Members of a pool bucket read through `qGet` are members of that bucket in
the association list. -/
theorem qGet_mem_inv (qs : List (String × List (Item ι))) (r : String)
    (hinv : ∀ pr ∈ qs, ∀ it ∈ pr.2, it.reuseID = pr.1)
    (it : Item ι) (hmem : it ∈ qGet qs r) : it.reuseID = r := by
  induction qs with
  | nil => cases hmem
  | cons pr rest ih =>
    by_cases hp : pr.1 = r
    · rw [qGet, if_pos hp] at hmem
      rw [← hp]
      exact hinv pr (by simp) it hmem
    · rw [qGet, if_neg hp] at hmem
      exact ih (fun q hq itq hitq => hinv q (List.mem_cons_of_mem pr hq) itq hitq) hmem

theorem dequeueItemRaw_spec (s : LSState ι) (r : String) :
    (dequeueItemRaw s r).2 = (qGet s.itemQueues r).getLast? ∧
    qGet (dequeueItemRaw s r).1.itemQueues r = (qGet s.itemQueues r).dropLast ∧
    (∀ r', r' ≠ r → qGet (dequeueItemRaw s r).1.itemQueues r' = qGet s.itemQueues r') ∧
    (dequeueItemRaw s r).1.visible = s.visible ∧
    (dequeueItemRaw s r).1.updating = s.updating ∧
    (dequeueItemRaw s r).1.viewNeedsRender = s.viewNeedsRender ∧
    evExt s (dequeueItemRaw s r).1 := by
  rw [dequeueItemRaw]
  cases hl : (qGet s.itemQueues r).getLast? with
  | none =>
    exact ⟨rfl, qGet_qSet_self s.itemQueues r _, fun r' hr => qGet_qSet_ne _ _ _ _ hr,
      rfl, rfl, rfl, [], by simp, by simp⟩
  | some it =>
    dsimp only
    by_cases hm : it.reuseID ≠ r
    · rw [if_pos hm]
      exact ⟨rfl, qGet_qSet_self s.itemQueues r _, fun r' hr => qGet_qSet_ne _ _ _ _ hr,
        rfl, rfl, rfl, [LSEv.logDequeueMismatch r it.reuseID], by simp, by simp⟩
    · rw [if_neg hm]
      exact ⟨rfl, qGet_qSet_self s.itemQueues r _, fun r' hr => qGet_qSet_ne _ _ _ _ hr,
        rfl, rfl, rfl, [], by simp, by simp⟩

theorem updateItem_ok_facts (props : LSProps ι) (s : LSState ι) (item : Item ι)
    (i : ι) (b : Bool) (s1 : LSState ι) (it1 : Item ι)
    (h : updateItem props s item i b = .ok (s1, it1)) :
    s1.itemQueues = s.itemQueues ∧ s1.visible = insVisible i it1 s.visible ∧
    it1.reuseID = item.reuseID ∧ s1.viewNeedsRender = s.viewNeedsRender ∧
    s1.updating = s.updating ∧
    s1.events = s.events ++ [LSEv.updatedItem i] := by
  rw [updateItem] at h
  cases hg : props.getItemContentLayout i with
  | error e =>
    rw [hg] at h
    cases h
  | ok layout =>
    rw [hg] at h
    simp only [Except.ok.injEq, Prod.mk.injEq] at h
    obtain ⟨hs, hit⟩ := h
    subst hs
    subst hit
    refine ⟨by simp [setVisibleItem], by simp [setVisibleItem], ?_,
      by simp [setVisibleItem], by simp [setVisibleItem], by simp [setVisibleItem]⟩
    by_cases hb : b = true <;> by_cases hsd : decide (props.showDuration ≤ 0) = true <;>
      by_cases hzi : item.zIndex = 0 <;> simp [hb, hsd, hzi]

theorem evExt_trans {a b c : LSState ι} (h1 : evExt a b) (h2 : evExt b c) :
    evExt a c := by
  obtain ⟨t1, e1, n1⟩ := h1
  obtain ⟨t2, e2, n2⟩ := h2
  exact ⟨t1 ++ t2, by rw [e2, e1, List.append_assoc], by simp [n1, n2]⟩

theorem queueItem_evExt (s : LSState ι) (i : ι) : evExt s (queueItem s i).1 := by
  rw [queueItem]
  cases getVisibleItem s i with
  | none => exact ⟨[LSEv.queueMiss i], rfl, by simp⟩
  | some item =>
    dsimp only
    refine ⟨[LSEv.queuedItem i], ?_, by simp⟩
    by_cases hrid : ({ item with opacity := (0 : ℚ) } : Item ι).reuseID ≠ "" <;>
      simp [hrid, setVisibleItem]

theorem createItem_ok_evExt (props : LSProps ι) (s : LSState ι) (i : ι)
    (s2 : LSState ι) (h : createItem props s i = .ok s2) : evExt s s2 := by
  rw [createItem] at h
  split at h
  · cases h
  · rename_i s3 it heq
    cases h
    obtain ⟨-, -, -, -, -, hev⟩ := updateItem_ok_facts _ _ _ _ _ _ _ heq
    refine ⟨[LSEv.created i, LSEv.updatedItem i], ?_, by simp⟩
    rw [hev]
    simp

theorem createItem_err_evExt (props : LSProps ι) (s : LSState ι) (i : ι)
    (s2 : LSState ι) (e : String) (h : createItem props s i = .error (s2, e)) :
    evExt s s2 := by
  rw [createItem] at h
  split at h
  · simp only [Except.error.injEq, Prod.mk.injEq] at h
    obtain ⟨h1, -⟩ := h
    rw [← h1]
    exact ⟨[LSEv.created i], by simp, by simp⟩
  · cases h

theorem dequeueItem_ok_evExt (props : LSProps ι) (s : LSState ι) (i : ι)
    (s1 : LSState ι) (res : Option (Item ι))
    (h : dequeueItem props s i = .ok (s1, res)) : evExt s s1 := by
  obtain ⟨-, -, -, -, -, -, q7⟩ := dequeueItemRaw_spec s (computeReuseID props i)
  rw [dequeueItem] at h
  cases hr : dequeueItemRaw s (computeReuseID props i) with
  | mk sr itemr =>
    rw [hr] at h q7
    cases itemr with
    | none =>
      simp only [Except.ok.injEq, Prod.mk.injEq] at h
      obtain ⟨h1, -⟩ := h
      rw [← h1]
      exact q7
    | some item =>
      dsimp only at h
      split at h
      · cases h
      · rename_i s2 item2 heq
        obtain ⟨-, -, -, -, -, hev⟩ := updateItem_ok_facts _ _ _ _ _ _ _ heq
        have hstep : evExt s s2 :=
          evExt_trans q7 ⟨[LSEv.updatedItem i], by rw [hev], by simp⟩
        split at h
        · simp only [Except.ok.injEq, Prod.mk.injEq] at h
          obtain ⟨h1, -⟩ := h
          rw [← h1]
          obtain ⟨t, et, nt⟩ := hstep
          exact ⟨t, by simp [setVisibleItem, et], nt⟩
        · simp only [Except.ok.injEq, Prod.mk.injEq] at h
          obtain ⟨h1, -⟩ := h
          rw [← h1]
          exact hstep

theorem dequeueItem_err_evExt (props : LSProps ι) (s : LSState ι) (i : ι)
    (s1 : LSState ι) (e : String)
    (h : dequeueItem props s i = .error (s1, e)) : evExt s s1 := by
  obtain ⟨-, -, -, -, -, -, q7⟩ := dequeueItemRaw_spec s (computeReuseID props i)
  rw [dequeueItem] at h
  cases hr : dequeueItemRaw s (computeReuseID props i) with
  | mk sr itemr =>
    rw [hr] at h q7
    cases itemr with
    | none => cases h
    | some item =>
      dsimp only at h
      split at h
      · simp only [Except.error.injEq, Prod.mk.injEq] at h
        obtain ⟨h1, -⟩ := h
        rw [← h1]
        exact q7
      · split at h <;> cases h

theorem processOp_remove_eq (props : LSProps ι) (opts : UpdOpts) (s : LSState ι)
    (oadd : Option ι) (r : ι) (hq : opts.queue = true) :
    processOp props opts s ⟨oadd, some r⟩ = .ok (queueItem s r).1 := by
  rw [processOp, hq]

theorem processOp_none_eq (props : LSProps ι) (opts : UpdOpts) (s : LSState ι)
    (oremove : Option ι) (hskip : oremove = none ∨ opts.queue = false) :
    processOp props opts s ⟨none, oremove⟩ = .ok s := by
  rcases hskip with h | h
  · subst h
    rw [processOp]
  · cases oremove with
    | none => rw [processOp]
    | some r => rw [processOp, h]

theorem processOp_add_eq (props : LSProps ι) (opts : UpdOpts) (s : LSState ι)
    (a : ι) (oremove : Option ι) (hskip : oremove = none ∨ opts.queue = false) :
    processOp props opts s ⟨some a, oremove⟩ =
      (match (if opts.dequeue then dequeueItem props s a else Except.ok (s, none)) with
        | .error (s1, e) => StepRes.err s1 e
        | .ok (s1, some _) => StepRes.ok s1
        | .ok (s1, none) =>
          if opts.create then
            match createItem props s1 a with
            | .ok s2 => StepRes.ok s2
            | .error (s2, e) => StepRes.err s2 e
          else StepRes.abort s1) := by
  rcases hskip with h | h
  · subst h
    rw [processOp]
  · cases oremove with
    | none => rw [processOp]
    | some r => rw [processOp, h]

theorem processOp_addPath_evExt (props : LSProps ι) (opts : UpdOpts)
    (s : LSState ι) (a : ι) :
    (∀ s1, (match (if opts.dequeue then dequeueItem props s a else Except.ok (s, none)) with
        | .error (s1, e) => StepRes.err s1 e
        | .ok (s1, some _) => StepRes.ok s1
        | .ok (s1, none) =>
          if opts.create then
            match createItem props s1 a with
            | .ok s2 => StepRes.ok s2
            | .error (s2, e) => StepRes.err s2 e
          else StepRes.abort s1) = StepRes.ok s1 → evExt s s1) ∧
    (∀ s1, (match (if opts.dequeue then dequeueItem props s a else Except.ok (s, none)) with
        | .error (s1, e) => StepRes.err s1 e
        | .ok (s1, some _) => StepRes.ok s1
        | .ok (s1, none) =>
          if opts.create then
            match createItem props s1 a with
            | .ok s2 => StepRes.ok s2
            | .error (s2, e) => StepRes.err s2 e
          else StepRes.abort s1) = StepRes.abort s1 → evExt s s1) ∧
    (∀ s1 e, (match (if opts.dequeue then dequeueItem props s a else Except.ok (s, none)) with
        | .error (s1, e) => StepRes.err s1 e
        | .ok (s1, some _) => StepRes.ok s1
        | .ok (s1, none) =>
          if opts.create then
            match createItem props s1 a with
            | .ok s2 => StepRes.ok s2
            | .error (s2, e) => StepRes.err s2 e
          else StepRes.abort s1) = StepRes.err s1 e → evExt s s1) := by
  by_cases hd : opts.dequeue = true
  · rw [if_pos hd]
    cases hq : dequeueItem props s a with
    | error pr =>
      obtain ⟨se, ee⟩ := pr
      refine ⟨fun s1 h => ?_, fun s1 h => ?_, fun s1 e h => ?_⟩
      · cases h
      · cases h
      · cases h
        exact dequeueItem_err_evExt props s a se ee hq
    | ok pr =>
      obtain ⟨s2, res⟩ := pr
      cases res with
      | some it =>
        refine ⟨fun s1 h => ?_, fun s1 h => ?_, fun s1 e h => ?_⟩
        · cases h
          exact dequeueItem_ok_evExt props s a s2 (some it) hq
        · cases h
        · cases h
      | none =>
        by_cases hc : opts.create = true
        · cases hcr : createItem props s2 a with
          | ok s3 =>
            refine ⟨fun s1 h => ?_, fun s1 h => ?_, fun s1 e h => ?_⟩
            · rw [show (match (Except.ok (ε := LSState ι × String) (s2, (none : Option (Item ι)))) with
                | .error (s1, e) => StepRes.err s1 e
                | .ok (s1, some _) => StepRes.ok s1
                | .ok (s1, none) =>
                  if opts.create then
                    match createItem props s1 a with
                    | .ok s2 => StepRes.ok s2
                    | .error (s2, e) => StepRes.err s2 e
                  else StepRes.abort s1) =
                  (if opts.create then
                    match createItem props s2 a with
                    | .ok s4 => StepRes.ok s4
                    | .error (s4, e) => StepRes.err s4 e
                  else StepRes.abort s2) from rfl, if_pos hc, hcr] at h
              cases h
              exact evExt_trans (dequeueItem_ok_evExt props s a s2 none hq)
                (createItem_ok_evExt props s2 a s3 hcr)
            · rw [show (match (Except.ok (ε := LSState ι × String) (s2, (none : Option (Item ι)))) with
                | .error (s1, e) => StepRes.err s1 e
                | .ok (s1, some _) => StepRes.ok s1
                | .ok (s1, none) =>
                  if opts.create then
                    match createItem props s1 a with
                    | .ok s2 => StepRes.ok s2
                    | .error (s2, e) => StepRes.err s2 e
                  else StepRes.abort s1) =
                  (if opts.create then
                    match createItem props s2 a with
                    | .ok s4 => StepRes.ok s4
                    | .error (s4, e) => StepRes.err s4 e
                  else StepRes.abort s2) from rfl, if_pos hc, hcr] at h
              cases h
            · rw [show (match (Except.ok (ε := LSState ι × String) (s2, (none : Option (Item ι)))) with
                | .error (s1, e) => StepRes.err s1 e
                | .ok (s1, some _) => StepRes.ok s1
                | .ok (s1, none) =>
                  if opts.create then
                    match createItem props s1 a with
                    | .ok s2 => StepRes.ok s2
                    | .error (s2, e) => StepRes.err s2 e
                  else StepRes.abort s1) =
                  (if opts.create then
                    match createItem props s2 a with
                    | .ok s4 => StepRes.ok s4
                    | .error (s4, e) => StepRes.err s4 e
                  else StepRes.abort s2) from rfl, if_pos hc, hcr] at h
              cases h
          | error pr2 =>
            obtain ⟨s3, e3⟩ := pr2
            refine ⟨fun s1 h => ?_, fun s1 h => ?_, fun s1 e h => ?_⟩
            · rw [show (match (Except.ok (ε := LSState ι × String) (s2, (none : Option (Item ι)))) with
                | .error (s1, e) => StepRes.err s1 e
                | .ok (s1, some _) => StepRes.ok s1
                | .ok (s1, none) =>
                  if opts.create then
                    match createItem props s1 a with
                    | .ok s2 => StepRes.ok s2
                    | .error (s2, e) => StepRes.err s2 e
                  else StepRes.abort s1) =
                  (if opts.create then
                    match createItem props s2 a with
                    | .ok s4 => StepRes.ok s4
                    | .error (s4, e) => StepRes.err s4 e
                  else StepRes.abort s2) from rfl, if_pos hc, hcr] at h
              cases h
            · rw [show (match (Except.ok (ε := LSState ι × String) (s2, (none : Option (Item ι)))) with
                | .error (s1, e) => StepRes.err s1 e
                | .ok (s1, some _) => StepRes.ok s1
                | .ok (s1, none) =>
                  if opts.create then
                    match createItem props s1 a with
                    | .ok s2 => StepRes.ok s2
                    | .error (s2, e) => StepRes.err s2 e
                  else StepRes.abort s1) =
                  (if opts.create then
                    match createItem props s2 a with
                    | .ok s4 => StepRes.ok s4
                    | .error (s4, e) => StepRes.err s4 e
                  else StepRes.abort s2) from rfl, if_pos hc, hcr] at h
              cases h
            · rw [show (match (Except.ok (ε := LSState ι × String) (s2, (none : Option (Item ι)))) with
                | .error (s1, e) => StepRes.err s1 e
                | .ok (s1, some _) => StepRes.ok s1
                | .ok (s1, none) =>
                  if opts.create then
                    match createItem props s1 a with
                    | .ok s2 => StepRes.ok s2
                    | .error (s2, e) => StepRes.err s2 e
                  else StepRes.abort s1) =
                  (if opts.create then
                    match createItem props s2 a with
                    | .ok s4 => StepRes.ok s4
                    | .error (s4, e) => StepRes.err s4 e
                  else StepRes.abort s2) from rfl, if_pos hc, hcr] at h
              cases h
              exact evExt_trans (dequeueItem_ok_evExt props s a s2 none hq)
                (createItem_err_evExt props s2 a s3 e3 hcr)
        · refine ⟨fun s1 h => ?_, fun s1 h => ?_, fun s1 e h => ?_⟩
          · rw [show (match (Except.ok (ε := LSState ι × String) (s2, (none : Option (Item ι)))) with
              | .error (s1, e) => StepRes.err s1 e
              | .ok (s1, some _) => StepRes.ok s1
              | .ok (s1, none) =>
                if opts.create then
                  match createItem props s1 a with
                  | .ok s2 => StepRes.ok s2
                  | .error (s2, e) => StepRes.err s2 e
                else StepRes.abort s1) =
                (if opts.create then
                  match createItem props s2 a with
                  | .ok s4 => StepRes.ok s4
                  | .error (s4, e) => StepRes.err s4 e
                else StepRes.abort s2) from rfl, if_neg hc] at h
            cases h
          · rw [show (match (Except.ok (ε := LSState ι × String) (s2, (none : Option (Item ι)))) with
              | .error (s1, e) => StepRes.err s1 e
              | .ok (s1, some _) => StepRes.ok s1
              | .ok (s1, none) =>
                if opts.create then
                  match createItem props s1 a with
                  | .ok s2 => StepRes.ok s2
                  | .error (s2, e) => StepRes.err s2 e
                else StepRes.abort s1) =
                (if opts.create then
                  match createItem props s2 a with
                  | .ok s4 => StepRes.ok s4
                  | .error (s4, e) => StepRes.err s4 e
                else StepRes.abort s2) from rfl, if_neg hc] at h
            cases h
            exact dequeueItem_ok_evExt props s a s2 none hq
          · rw [show (match (Except.ok (ε := LSState ι × String) (s2, (none : Option (Item ι)))) with
              | .error (s1, e) => StepRes.err s1 e
              | .ok (s1, some _) => StepRes.ok s1
              | .ok (s1, none) =>
                if opts.create then
                  match createItem props s1 a with
                  | .ok s2 => StepRes.ok s2
                  | .error (s2, e) => StepRes.err s2 e
                else StepRes.abort s1) =
                (if opts.create then
                  match createItem props s2 a with
                  | .ok s4 => StepRes.ok s4
                  | .error (s4, e) => StepRes.err s4 e
                else StepRes.abort s2) from rfl, if_neg hc] at h
            cases h
  · rw [if_neg hd]
    by_cases hc : opts.create = true
    · cases hcr : createItem props s a with
      | ok s3 =>
        refine ⟨fun s1 h => ?_, fun s1 h => ?_, fun s1 e h => ?_⟩
        · rw [show (match (Except.ok (ε := LSState ι × String) (s, (none : Option (Item ι)))) with
            | .error (s1, e) => StepRes.err s1 e
            | .ok (s1, some _) => StepRes.ok s1
            | .ok (s1, none) =>
              if opts.create then
                match createItem props s1 a with
                | .ok s2 => StepRes.ok s2
                | .error (s2, e) => StepRes.err s2 e
              else StepRes.abort s1) =
              (if opts.create then
                match createItem props s a with
                | .ok s4 => StepRes.ok s4
                | .error (s4, e) => StepRes.err s4 e
              else StepRes.abort s) from rfl, if_pos hc, hcr] at h
          cases h
          exact createItem_ok_evExt props s a s3 hcr
        · rw [show (match (Except.ok (ε := LSState ι × String) (s, (none : Option (Item ι)))) with
            | .error (s1, e) => StepRes.err s1 e
            | .ok (s1, some _) => StepRes.ok s1
            | .ok (s1, none) =>
              if opts.create then
                match createItem props s1 a with
                | .ok s2 => StepRes.ok s2
                | .error (s2, e) => StepRes.err s2 e
              else StepRes.abort s1) =
              (if opts.create then
                match createItem props s a with
                | .ok s4 => StepRes.ok s4
                | .error (s4, e) => StepRes.err s4 e
              else StepRes.abort s) from rfl, if_pos hc, hcr] at h
          cases h
        · rw [show (match (Except.ok (ε := LSState ι × String) (s, (none : Option (Item ι)))) with
            | .error (s1, e) => StepRes.err s1 e
            | .ok (s1, some _) => StepRes.ok s1
            | .ok (s1, none) =>
              if opts.create then
                match createItem props s1 a with
                | .ok s2 => StepRes.ok s2
                | .error (s2, e) => StepRes.err s2 e
              else StepRes.abort s1) =
              (if opts.create then
                match createItem props s a with
                | .ok s4 => StepRes.ok s4
                | .error (s4, e) => StepRes.err s4 e
              else StepRes.abort s) from rfl, if_pos hc, hcr] at h
          cases h
      | error pr2 =>
        obtain ⟨s3, e3⟩ := pr2
        refine ⟨fun s1 h => ?_, fun s1 h => ?_, fun s1 e h => ?_⟩
        · rw [show (match (Except.ok (ε := LSState ι × String) (s, (none : Option (Item ι)))) with
            | .error (s1, e) => StepRes.err s1 e
            | .ok (s1, some _) => StepRes.ok s1
            | .ok (s1, none) =>
              if opts.create then
                match createItem props s1 a with
                | .ok s2 => StepRes.ok s2
                | .error (s2, e) => StepRes.err s2 e
              else StepRes.abort s1) =
              (if opts.create then
                match createItem props s a with
                | .ok s4 => StepRes.ok s4
                | .error (s4, e) => StepRes.err s4 e
              else StepRes.abort s) from rfl, if_pos hc, hcr] at h
          cases h
        · rw [show (match (Except.ok (ε := LSState ι × String) (s, (none : Option (Item ι)))) with
            | .error (s1, e) => StepRes.err s1 e
            | .ok (s1, some _) => StepRes.ok s1
            | .ok (s1, none) =>
              if opts.create then
                match createItem props s1 a with
                | .ok s2 => StepRes.ok s2
                | .error (s2, e) => StepRes.err s2 e
              else StepRes.abort s1) =
              (if opts.create then
                match createItem props s a with
                | .ok s4 => StepRes.ok s4
                | .error (s4, e) => StepRes.err s4 e
              else StepRes.abort s) from rfl, if_pos hc, hcr] at h
          cases h
        · rw [show (match (Except.ok (ε := LSState ι × String) (s, (none : Option (Item ι)))) with
            | .error (s1, e) => StepRes.err s1 e
            | .ok (s1, some _) => StepRes.ok s1
            | .ok (s1, none) =>
              if opts.create then
                match createItem props s1 a with
                | .ok s2 => StepRes.ok s2
                | .error (s2, e) => StepRes.err s2 e
              else StepRes.abort s1) =
              (if opts.create then
                match createItem props s a with
                | .ok s4 => StepRes.ok s4
                | .error (s4, e) => StepRes.err s4 e
              else StepRes.abort s) from rfl, if_pos hc, hcr] at h
          cases h
          exact createItem_err_evExt props s a s3 e3 hcr
    · refine ⟨fun s1 h => ?_, fun s1 h => ?_, fun s1 e h => ?_⟩
      · rw [show (match (Except.ok (ε := LSState ι × String) (s, (none : Option (Item ι)))) with
          | .error (s1, e) => StepRes.err s1 e
          | .ok (s1, some _) => StepRes.ok s1
          | .ok (s1, none) =>
            if opts.create then
              match createItem props s1 a with
              | .ok s2 => StepRes.ok s2
              | .error (s2, e) => StepRes.err s2 e
            else StepRes.abort s1) =
            (if opts.create then
              match createItem props s a with
              | .ok s4 => StepRes.ok s4
              | .error (s4, e) => StepRes.err s4 e
            else StepRes.abort s) from rfl, if_neg hc] at h
        cases h
      · rw [show (match (Except.ok (ε := LSState ι × String) (s, (none : Option (Item ι)))) with
          | .error (s1, e) => StepRes.err s1 e
          | .ok (s1, some _) => StepRes.ok s1
          | .ok (s1, none) =>
            if opts.create then
              match createItem props s1 a with
              | .ok s2 => StepRes.ok s2
              | .error (s2, e) => StepRes.err s2 e
            else StepRes.abort s1) =
            (if opts.create then
              match createItem props s a with
              | .ok s4 => StepRes.ok s4
              | .error (s4, e) => StepRes.err s4 e
            else StepRes.abort s) from rfl, if_neg hc] at h
        cases h
        exact ⟨[], by simp, by simp⟩
      · rw [show (match (Except.ok (ε := LSState ι × String) (s, (none : Option (Item ι)))) with
          | .error (s1, e) => StepRes.err s1 e
          | .ok (s1, some _) => StepRes.ok s1
          | .ok (s1, none) =>
            if opts.create then
              match createItem props s1 a with
              | .ok s2 => StepRes.ok s2
              | .error (s2, e) => StepRes.err s2 e
            else StepRes.abort s1) =
            (if opts.create then
              match createItem props s a with
              | .ok s4 => StepRes.ok s4
              | .error (s4, e) => StepRes.err s4 e
            else StepRes.abort s) from rfl, if_neg hc] at h
        cases h

theorem processOp_evExt (props : LSProps ι) (opts : UpdOpts) (s : LSState ι)
    (op : OpU ι) :
    (∀ s1, processOp props opts s op = .ok s1 → evExt s s1) ∧
    (∀ s1, processOp props opts s op = .abort s1 → evExt s s1) ∧
    (∀ s1 e, processOp props opts s op = .err s1 e → evExt s s1) := by
  obtain ⟨oadd, oremove⟩ := op
  rcases hsk : oremove with - | r
  case some =>
    cases hqv : opts.queue with
    | true =>
      rw [processOp_remove_eq props opts s oadd r hqv]
      refine ⟨fun s1 h => ?_, fun s1 h => ?_, fun s1 e h => ?_⟩
      · cases h
        exact queueItem_evExt s r
      · cases h
      · cases h
    | false =>
      cases oadd with
      | none =>
        rw [processOp_none_eq props opts s (some r) (Or.inr hqv)]
        refine ⟨fun s1 h => ?_, fun s1 h => ?_, fun s1 e h => ?_⟩
        · cases h
          exact ⟨[], by simp, by simp⟩
        · cases h
        · cases h
      | some a =>
        rw [processOp_add_eq props opts s a (some r) (Or.inr hqv)]
        exact processOp_addPath_evExt props opts s a
  case none =>
    cases oadd with
    | none =>
      rw [processOp_none_eq props opts s none (Or.inl rfl)]
      refine ⟨fun s1 h => ?_, fun s1 h => ?_, fun s1 e h => ?_⟩
      · cases h
        exact ⟨[], by simp, by simp⟩
      · cases h
      · cases h
    | some a =>
      rw [processOp_add_eq props opts s a none (Or.inl rfl)]
      exact processOp_addPath_evExt props opts s a

theorem processOps_evExt (props : LSProps ι) (opts : UpdOpts) :
    ∀ (ops : List (OpU ι)) (s : LSState ι),
    (∀ s1, processOps props opts ops s = .ok s1 → evExt s s1) ∧
    (∀ s1, processOps props opts ops s = .abort s1 → evExt s s1) ∧
    (∀ s1 e, processOps props opts ops s = .err s1 e → evExt s s1) := by
  intro ops
  induction ops with
  | nil =>
    intro s
    refine ⟨fun s1 h => ?_, fun s1 h => ?_, fun s1 e h => ?_⟩
    · cases h
      exact ⟨[], by simp, by simp⟩
    · cases h
    · cases h
  | cons op rest ih =>
    intro s
    cases hp : processOp props opts s op with
    | ok s2 =>
      have hstep := (processOp_evExt props opts s op).1 s2 hp
      refine ⟨fun s1 h => ?_, fun s1 h => ?_, fun s1 e h => ?_⟩
      · rw [processOps, hp] at h
        exact evExt_trans hstep ((ih s2).1 s1 h)
      · rw [processOps, hp] at h
        exact evExt_trans hstep ((ih s2).2.1 s1 h)
      · rw [processOps, hp] at h
        exact evExt_trans hstep ((ih s2).2.2 s1 e h)
    | abort s2 =>
      have hstep := (processOp_evExt props opts s op).2.1 s2 hp
      refine ⟨fun s1 h => ?_, fun s1 h => ?_, fun s1 e h => ?_⟩
      · rw [processOps, hp] at h
        cases h
      · rw [processOps, hp] at h
        cases h
        exact hstep
      · rw [processOps, hp] at h
        cases h
    | err s2 e2 =>
      have hstep := (processOp_evExt props opts s op).2.2 s2 e2 hp
      refine ⟨fun s1 h => ?_, fun s1 h => ?_, fun s1 e h => ?_⟩
      · rw [processOps, hp] at h
        cases h
      · rw [processOps, hp] at h
        cases h
      · rw [processOps, hp] at h
        cases h
        exact hstep

theorem processOps_append (props : LSProps ι) (opts : UpdOpts) :
    ∀ (l1 l2 : List (OpU ι)) (s : LSState ι),
    processOps props opts (l1 ++ l2) s =
      (match processOps props opts l1 s with
        | .ok s1 => processOps props opts l2 s1
        | .abort s1 => .abort s1
        | .err s1 e => .err s1 e) := by
  intro l1
  induction l1 with
  | nil =>
    intro l2 s
    rfl
  | cons op rest ih =>
    intro l2 s
    cases hp : processOp props opts s op with
    | ok s2 =>
      calc processOps props opts ((op :: rest) ++ l2) s
          = processOps props opts (rest ++ l2) s2 := by
            rw [List.cons_append, processOps, hp]
        _ = (match processOps props opts rest s2 with
              | .ok s1 => processOps props opts l2 s1
              | .abort s1 => .abort s1
              | .err s1 e => .err s1 e) := ih l2 s2
        _ = (match processOps props opts (op :: rest) s with
              | .ok s1 => processOps props opts l2 s1
              | .abort s1 => .abort s1
              | .err s1 e => .err s1 e) := by
            rw [processOps, hp]
    | abort s2 =>
      calc processOps props opts ((op :: rest) ++ l2) s
          = .abort s2 := by rw [List.cons_append, processOps, hp]
        _ = (match processOps props opts (op :: rest) s with
              | .ok s1 => processOps props opts l2 s1
              | .abort s1 => .abort s1
              | .err s1 e => .err s1 e) := by
            rw [processOps, hp]
    | err s2 e2 =>
      calc processOps props opts ((op :: rest) ++ l2) s
          = .err s2 e2 := by rw [List.cons_append, processOps, hp]
        _ = (match processOps props opts (op :: rest) s with
              | .ok s1 => processOps props opts l2 s1
              | .abort s1 => .abort s1
              | .err s1 e => .err s1 e) := by
            rw [processOps, hp]

theorem updateAllGo_evExt (props : LSProps ι) :
    ∀ (l : List ι) (s : LSState ι),
    (∀ s1, updateAllGo props l s = .ok s1 → evExt s s1) ∧
    (∀ s1 e, updateAllGo props l s = .error (s1, e) → evExt s s1) := by
  intro l
  induction l with
  | nil =>
    intro s
    refine ⟨fun s1 h => ?_, fun s1 e h => ?_⟩
    · cases h
      exact ⟨[], by simp, by simp⟩
    · cases h
  | cons i rest ih =>
    intro s
    cases hv : getVisibleItem s i with
    | none =>
      refine ⟨fun s1 h => ?_, fun s1 e h => ?_⟩
      · rw [updateAllGo, hv] at h
        exact (ih s).1 s1 h
      · rw [updateAllGo, hv] at h
        exact (ih s).2 s1 e h
    | some item =>
      cases hu : updateItem props s item i false with
      | error e2 =>
        refine ⟨fun s1 h => ?_, fun s1 e h => ?_⟩
        · rw [updateAllGo, hv] at h
          dsimp only at h
          rw [hu] at h
          cases h
        · rw [updateAllGo, hv] at h
          dsimp only at h
          rw [hu] at h
          cases h
          exact ⟨[], by simp, by simp⟩
      | ok pr =>
        obtain ⟨s2, it2⟩ := pr
        obtain ⟨-, -, -, -, -, hev⟩ := updateItem_ok_facts _ _ _ _ _ _ _ hu
        have hstep : evExt s s2 := ⟨[LSEv.updatedItem i], by rw [hev], by simp⟩
        refine ⟨fun s1 h => ?_, fun s1 e h => ?_⟩
        · rw [updateAllGo, hv] at h
          dsimp only at h
          rw [hu] at h
          exact evExt_trans hstep ((ih s2).1 s1 h)
        · rw [updateAllGo, hv] at h
          dsimp only at h
          rw [hu] at h
          exact evExt_trans hstep ((ih s2).2 s1 e h)

theorem evSeg_trans {P : LSEv ι → Bool} {a b c : LSState ι} (h1 : evSeg P a b)
    (h2 : evSeg P b c) : evSeg P a c := by
  obtain ⟨t1, e1, n1⟩ := h1
  obtain ⟨t2, e2, n2⟩ := h2
  refine ⟨t1 ++ t2, by rw [e2, e1, List.append_assoc], ?_⟩
  intro e he
  rcases List.mem_append.mp he with h | h
  · exact n1 e h
  · exact n2 e h

theorem queueItem_evSeg (P : LSEv ι → Bool) (s : LSState ι) (i : ι)
    (h1 : P (LSEv.queuedItem i) = true) (h2 : P (LSEv.queueMiss i) = true) :
    evSeg P s (queueItem s i).1 := by
  rw [queueItem]
  cases getVisibleItem s i with
  | none => exact ⟨[LSEv.queueMiss i], rfl, by simp [h2]⟩
  | some item =>
    dsimp only
    refine ⟨[LSEv.queuedItem i], ?_, by simp [h1]⟩
    by_cases hrid : ({ item with opacity := (0 : ℚ) } : Item ι).reuseID ≠ "" <;>
      simp [hrid, setVisibleItem]

theorem dequeueItemRaw_evSeg (P : LSEv ι → Bool) (s : LSState ι) (r : String)
    (hm : ∀ x y, P (LSEv.logDequeueMismatch x y) = true) :
    evSeg P s (dequeueItemRaw s r).1 := by
  rw [dequeueItemRaw]
  cases hl : (qGet s.itemQueues r).getLast? with
  | none => exact ⟨[], by simp, by simp⟩
  | some it =>
    dsimp only
    by_cases hmm : it.reuseID ≠ r
    · rw [if_pos hmm]
      exact ⟨[LSEv.logDequeueMismatch r it.reuseID], by simp, by simp [hm]⟩
    · rw [if_neg hmm]
      exact ⟨[], by simp, by simp⟩

theorem createItem_ok_evSeg (P : LSEv ι → Bool) (props : LSProps ι)
    (s : LSState ι) (i : ι) (s2 : LSState ι)
    (hcd : P (LSEv.created i) = true) (hu : P (LSEv.updatedItem i) = true)
    (h : createItem props s i = .ok s2) : evSeg P s s2 := by
  rw [createItem] at h
  split at h
  · cases h
  · rename_i s3 it heq
    cases h
    obtain ⟨-, -, -, -, -, hev⟩ := updateItem_ok_facts _ _ _ _ _ _ _ heq
    refine ⟨[LSEv.created i, LSEv.updatedItem i], ?_, by simp [hcd, hu]⟩
    rw [hev]
    simp

theorem createItem_err_evSeg (P : LSEv ι → Bool) (props : LSProps ι)
    (s : LSState ι) (i : ι) (s2 : LSState ι) (e : String)
    (hcd : P (LSEv.created i) = true)
    (h : createItem props s i = .error (s2, e)) : evSeg P s s2 := by
  rw [createItem] at h
  split at h
  · simp only [Except.error.injEq, Prod.mk.injEq] at h
    obtain ⟨h1, -⟩ := h
    rw [← h1]
    exact ⟨[LSEv.created i], by simp, by simp [hcd]⟩
  · cases h

theorem dequeueItem_ok_evSeg (P : LSEv ι → Bool) (props : LSProps ι)
    (s : LSState ι) (i : ι) (s1 : LSState ι) (res : Option (Item ι))
    (hm : ∀ x y, P (LSEv.logDequeueMismatch x y) = true)
    (hu : P (LSEv.updatedItem i) = true)
    (h : dequeueItem props s i = .ok (s1, res)) : evSeg P s s1 := by
  have q7 := dequeueItemRaw_evSeg P s (computeReuseID props i) hm
  rw [dequeueItem] at h
  cases hr : dequeueItemRaw s (computeReuseID props i) with
  | mk sr itemr =>
    rw [hr] at h q7
    cases itemr with
    | none =>
      simp only [Except.ok.injEq, Prod.mk.injEq] at h
      obtain ⟨h1, -⟩ := h
      rw [← h1]
      exact q7
    | some item =>
      dsimp only at h
      split at h
      · cases h
      · rename_i s2 item2 heq
        obtain ⟨-, -, -, -, -, hev⟩ := updateItem_ok_facts _ _ _ _ _ _ _ heq
        have hstep : evSeg P s s2 :=
          evSeg_trans q7 ⟨[LSEv.updatedItem i], by rw [hev], by simp [hu]⟩
        split at h
        · simp only [Except.ok.injEq, Prod.mk.injEq] at h
          obtain ⟨h1, -⟩ := h
          rw [← h1]
          obtain ⟨t, et, nt⟩ := hstep
          exact ⟨t, by simp [setVisibleItem, et], nt⟩
        · simp only [Except.ok.injEq, Prod.mk.injEq] at h
          obtain ⟨h1, -⟩ := h
          rw [← h1]
          exact hstep

theorem dequeueItem_err_evSeg (P : LSEv ι → Bool) (props : LSProps ι)
    (s : LSState ι) (i : ι) (s1 : LSState ι) (e : String)
    (hm : ∀ x y, P (LSEv.logDequeueMismatch x y) = true)
    (h : dequeueItem props s i = .error (s1, e)) : evSeg P s s1 := by
  have q7 := dequeueItemRaw_evSeg P s (computeReuseID props i) hm
  rw [dequeueItem] at h
  cases hr : dequeueItemRaw s (computeReuseID props i) with
  | mk sr itemr =>
    rw [hr] at h q7
    cases itemr with
    | none => cases h
    | some item =>
      dsimp only at h
      split at h
      · simp only [Except.error.injEq, Prod.mk.injEq] at h
        obtain ⟨h1, -⟩ := h
        rw [← h1]
        exact q7
      · split at h <;> cases h

theorem processOp_addPath_evSeg (P : LSEv ι → Bool) (props : LSProps ι)
    (opts : UpdOpts) (s : LSState ι) (a : ι)
    (hm : ∀ x y, P (LSEv.logDequeueMismatch x y) = true)
    (hcd : P (LSEv.created a) = true) (hup : P (LSEv.updatedItem a) = true) :
    (∀ s1, (match (if opts.dequeue then dequeueItem props s a else Except.ok (s, none)) with
        | .error (s1, e) => StepRes.err s1 e
        | .ok (s1, some _) => StepRes.ok s1
        | .ok (s1, none) =>
          if opts.create then
            match createItem props s1 a with
            | .ok s2 => StepRes.ok s2
            | .error (s2, e) => StepRes.err s2 e
          else StepRes.abort s1) = StepRes.ok s1 → evSeg P s s1) ∧
    (∀ s1, (match (if opts.dequeue then dequeueItem props s a else Except.ok (s, none)) with
        | .error (s1, e) => StepRes.err s1 e
        | .ok (s1, some _) => StepRes.ok s1
        | .ok (s1, none) =>
          if opts.create then
            match createItem props s1 a with
            | .ok s2 => StepRes.ok s2
            | .error (s2, e) => StepRes.err s2 e
          else StepRes.abort s1) = StepRes.abort s1 → evSeg P s s1) ∧
    (∀ s1 e, (match (if opts.dequeue then dequeueItem props s a else Except.ok (s, none)) with
        | .error (s1, e) => StepRes.err s1 e
        | .ok (s1, some _) => StepRes.ok s1
        | .ok (s1, none) =>
          if opts.create then
            match createItem props s1 a with
            | .ok s2 => StepRes.ok s2
            | .error (s2, e) => StepRes.err s2 e
          else StepRes.abort s1) = StepRes.err s1 e → evSeg P s s1) := by
  by_cases hd : opts.dequeue = true
  · rw [if_pos hd]
    cases hq : dequeueItem props s a with
    | error pr =>
      obtain ⟨se, ee⟩ := pr
      refine ⟨fun s1 h => ?_, fun s1 h => ?_, fun s1 e h => ?_⟩
      · cases h
      · cases h
      · cases h
        exact dequeueItem_err_evSeg P props s a se ee hm hq
    | ok pr =>
      obtain ⟨s2, res⟩ := pr
      cases res with
      | some it =>
        refine ⟨fun s1 h => ?_, fun s1 h => ?_, fun s1 e h => ?_⟩
        · cases h
          exact dequeueItem_ok_evSeg P props s a s2 (some it) hm hup hq
        · cases h
        · cases h
      | none =>
        have hstep : evSeg P s s2 := dequeueItem_ok_evSeg P props s a s2 none hm hup hq
        by_cases hc : opts.create = true
        · cases hcr2 : createItem props s2 a with
          | ok s3 =>
            refine ⟨fun s1 h => ?_, fun s1 h => ?_, fun s1 e h => ?_⟩
            · dsimp only at h
              rw [if_pos hc, hcr2] at h
              cases h
              exact evSeg_trans hstep (createItem_ok_evSeg P props s2 a s3 hcd hup hcr2)
            · dsimp only at h
              rw [if_pos hc, hcr2] at h
              cases h
            · dsimp only at h
              rw [if_pos hc, hcr2] at h
              cases h
          | error pr2 =>
            obtain ⟨s3, e3⟩ := pr2
            refine ⟨fun s1 h => ?_, fun s1 h => ?_, fun s1 e h => ?_⟩
            · dsimp only at h
              rw [if_pos hc, hcr2] at h
              cases h
            · dsimp only at h
              rw [if_pos hc, hcr2] at h
              cases h
            · dsimp only at h
              rw [if_pos hc, hcr2] at h
              cases h
              exact evSeg_trans hstep (createItem_err_evSeg P props s2 a s3 e3 hcd hcr2)
        · refine ⟨fun s1 h => ?_, fun s1 h => ?_, fun s1 e h => ?_⟩
          · dsimp only at h
            rw [if_neg hc] at h
            cases h
          · dsimp only at h
            rw [if_neg hc] at h
            cases h
            exact hstep
          · dsimp only at h
            rw [if_neg hc] at h
            cases h
  · rw [if_neg hd]
    by_cases hc : opts.create = true
    · cases hcr2 : createItem props s a with
      | ok s3 =>
        refine ⟨fun s1 h => ?_, fun s1 h => ?_, fun s1 e h => ?_⟩
        · dsimp only at h
          rw [if_pos hc, hcr2] at h
          cases h
          exact createItem_ok_evSeg P props s a s3 hcd hup hcr2
        · dsimp only at h
          rw [if_pos hc, hcr2] at h
          cases h
        · dsimp only at h
          rw [if_pos hc, hcr2] at h
          cases h
      | error pr2 =>
        obtain ⟨s3, e3⟩ := pr2
        refine ⟨fun s1 h => ?_, fun s1 h => ?_, fun s1 e h => ?_⟩
        · dsimp only at h
          rw [if_pos hc, hcr2] at h
          cases h
        · dsimp only at h
          rw [if_pos hc, hcr2] at h
          cases h
        · dsimp only at h
          rw [if_pos hc, hcr2] at h
          cases h
          exact createItem_err_evSeg P props s a s3 e3 hcd hcr2
    · refine ⟨fun s1 h => ?_, fun s1 h => ?_, fun s1 e h => ?_⟩
      · dsimp only at h
        rw [if_neg hc] at h
        cases h
      · dsimp only at h
        rw [if_neg hc] at h
        cases h
        exact ⟨[], by simp, by simp⟩
      · dsimp only at h
        rw [if_neg hc] at h
        cases h

theorem processOp_evSeg (props : LSProps ι) (opts : UpdOpts) (s : LSState ι)
    (op : OpU ι) :
    (∀ s1, processOp props opts s op = .ok s1 → evSeg (evForOp op) s s1) ∧
    (∀ s1, processOp props opts s op = .abort s1 → evSeg (evForOp op) s s1) ∧
    (∀ s1 e, processOp props opts s op = .err s1 e → evSeg (evForOp op) s s1) := by
  obtain ⟨oadd, oremove⟩ := op
  rcases hsk : oremove with - | r
  case some =>
    cases hqv : opts.queue with
    | true =>
      rw [processOp_remove_eq props opts s oadd r hqv]
      refine ⟨fun s1 h => ?_, fun s1 h => ?_, fun s1 e h => ?_⟩
      · cases h
        exact queueItem_evSeg _ s r (by simp [evForOp]) (by simp [evForOp])
      · cases h
      · cases h
    | false =>
      cases oadd with
      | none =>
        rw [processOp_none_eq props opts s (some r) (Or.inr hqv)]
        refine ⟨fun s1 h => ?_, fun s1 h => ?_, fun s1 e h => ?_⟩
        · cases h
          exact ⟨[], by simp, by simp⟩
        · cases h
        · cases h
      | some a =>
        rw [processOp_add_eq props opts s a (some r) (Or.inr hqv)]
        exact processOp_addPath_evSeg _ props opts s a (fun x y => by simp [evForOp])
          (by simp [evForOp]) (by simp [evForOp])
  case none =>
    cases oadd with
    | none =>
      rw [processOp_none_eq props opts s none (Or.inl rfl)]
      refine ⟨fun s1 h => ?_, fun s1 h => ?_, fun s1 e h => ?_⟩
      · cases h
        exact ⟨[], by simp, by simp⟩
      · cases h
      · cases h
    | some a =>
      rw [processOp_add_eq props opts s a none (Or.inl rfl)]
      exact processOp_addPath_evSeg _ props opts s a (fun x y => by simp [evForOp])
        (by simp [evForOp]) (by simp [evForOp])

/-- Per-operation segmentation of a run of the `updateItems` loop: the trace
extends by the in-order concatenation of one segment per consumed operation,
each segment holding only events that belong to its operation. A normal run
consumes every operation; an abort or a throw consumes a prefix. -/
theorem processOps_segments (props : LSProps ι) (opts : UpdOpts) :
    ∀ (ops : List (OpU ι)) (s : LSState ι),
    (∀ s1, processOps props opts ops s = .ok s1 →
      ∃ segs : List (List (LSEv ι)), segs.length = ops.length ∧
        s1.events = s.events ++ segs.flatten ∧
        ∀ pr ∈ segs.zip ops, ∀ e ∈ pr.1, evForOp pr.2 e = true) ∧
    (∀ s1, processOps props opts ops s = .abort s1 →
      ∃ segs : List (List (LSEv ι)), segs.length ≤ ops.length ∧
        s1.events = s.events ++ segs.flatten ∧
        ∀ pr ∈ segs.zip ops, ∀ e ∈ pr.1, evForOp pr.2 e = true) ∧
    (∀ s1 e, processOps props opts ops s = .err s1 e →
      ∃ segs : List (List (LSEv ι)), segs.length ≤ ops.length ∧
        s1.events = s.events ++ segs.flatten ∧
        ∀ pr ∈ segs.zip ops, ∀ e2 ∈ pr.1, evForOp pr.2 e2 = true) := by
  intro ops
  induction ops with
  | nil =>
    intro s
    refine ⟨fun s1 h => ?_, fun s1 h => ?_, fun s1 e h => ?_⟩
    · cases h
      exact ⟨[], rfl, by simp, by simp⟩
    · cases h
    · cases h
  | cons op rest ih =>
    intro s
    cases hp : processOp props opts s op with
    | ok s2 =>
      obtain ⟨t, ht, hPt⟩ := (processOp_evSeg props opts s op).1 s2 hp
      refine ⟨fun s1 h => ?_, fun s1 h => ?_, fun s1 e h => ?_⟩
      · rw [processOps, hp] at h
        obtain ⟨segs, hlen, hev, hall⟩ := (ih s2).1 s1 h
        refine ⟨t :: segs, by simp [hlen], ?_, ?_⟩
        · rw [hev, ht]
          simp
        · intro pr hpr e2 he2
          rw [List.zip_cons_cons] at hpr
          rcases List.mem_cons.mp hpr with hh | hh
          · subst hh
            exact hPt e2 he2
          · exact hall pr hh e2 he2
      · rw [processOps, hp] at h
        obtain ⟨segs, hlen, hev, hall⟩ := (ih s2).2.1 s1 h
        refine ⟨t :: segs, by simpa using Nat.succ_le_succ hlen, ?_, ?_⟩
        · rw [hev, ht]
          simp
        · intro pr hpr e2 he2
          rw [List.zip_cons_cons] at hpr
          rcases List.mem_cons.mp hpr with hh | hh
          · subst hh
            exact hPt e2 he2
          · exact hall pr hh e2 he2
      · rw [processOps, hp] at h
        obtain ⟨segs, hlen, hev, hall⟩ := (ih s2).2.2 s1 e h
        refine ⟨t :: segs, by simpa using Nat.succ_le_succ hlen, ?_, ?_⟩
        · rw [hev, ht]
          simp
        · intro pr hpr e2 he2
          rw [List.zip_cons_cons] at hpr
          rcases List.mem_cons.mp hpr with hh | hh
          · subst hh
            exact hPt e2 he2
          · exact hall pr hh e2 he2
    | abort s2 =>
      obtain ⟨t, ht, hPt⟩ := (processOp_evSeg props opts s op).2.1 s2 hp
      refine ⟨fun s1 h => ?_, fun s1 h => ?_, fun s1 e h => ?_⟩
      · rw [processOps, hp] at h
        cases h
      · rw [processOps, hp] at h
        cases h
        refine ⟨[t], by simp, ?_, ?_⟩
        · rw [ht]
          simp
        · intro pr hpr e2 he2
          rw [List.zip_cons_cons] at hpr
          rcases List.mem_cons.mp hpr with hh | hh
          · subst hh
            exact hPt e2 he2
          · simp at hh
      · rw [processOps, hp] at h
        cases h
    | err s2 e2 =>
      obtain ⟨t, ht, hPt⟩ := (processOp_evSeg props opts s op).2.2 s2 e2 hp
      refine ⟨fun s1 h => ?_, fun s1 h => ?_, fun s1 e h => ?_⟩
      · rw [processOps, hp] at h
        cases h
      · rw [processOps, hp] at h
        cases h
      · rw [processOps, hp] at h
        cases h
        refine ⟨[t], by simp, ?_, ?_⟩
        · rw [ht]
          simp
        · intro pr hpr e3 he3
          rw [List.zip_cons_cons] at hpr
          rcases List.mem_cons.mp hpr with hh | hh
          · subst hh
            exact hPt e3 he3
          · simp at hh

theorem updateItems_eq (props : LSProps ι) (opts : UpdOpts) (ops : List (OpU ι))
    (s : LSState ι) (h : s.updating = false) :
    updateItems props opts ops s =
      (match processOps props opts ops { s with updating := true } with
        | .abort s1 => Except.ok { endUpdateLS s1 with viewNeedsRender := true }
        | .err s1 e =>
          .ok (endUpdateLS { s1 with events := s1.events ++ [LSEv.logError e] })
        | .ok s1 =>
          if opts.update then
            match updateAllGo props
                (({ s1 with events := s1.events ++ [LSEv.updateAllPass] } : LSState ι).visible.map
                  (fun pr => pr.1))
                { s1 with events := s1.events ++ [LSEv.updateAllPass] } with
            | .error (s3, e) =>
              .ok (endUpdateLS { s3 with events := s3.events ++ [LSEv.logError e] })
            | .ok s3 => .ok (endUpdateLS s3)
          else .ok (endUpdateLS s1)) := by
  rw [updateItems, if_neg (by simp [h])]

/-! ## Claim C3 — processing order within updateItems -/

/-- C3 (counterexample): a subclass sequence that yields an addition before a
removal has the addition processed first. With `{add: 0}` followed by
`{remove: 1}`, the resulting trace creates/shows index 0 before retiring
index 1, so removals are not all processed before additions. -/
theorem claim3_counterexample :
    (updateItems cProps ⟨true, true, true, false⟩
        [⟨some 0, none⟩, ⟨none, some 1⟩] cLS).toOption.map
      (fun s1 => removalsFirst s1.events) = some false := by
  decide

/-- C3 (amended): within one `updateItems` call, add/remove operations are
processed in exactly the order the subclass's `itemUpdates()` yields them
(interleaved as yielded, not removals-first), and the entire add/remove
sequence is consumed before the optional update-all-visible pass begins: the
trace appended by the call factors as the in-order concatenation of
per-operation segments — segment `k` holding only events that belong to the
`k`-th yielded operation, so no operation's events precede an earlier
operation's segment — followed by the update-pass segment opened by the
single `updateAllPass` marker (committing run with updates enabled), by
nothing (updates disabled, or aborted), or by a single caught-error log; on a
run that completes the sequence every operation contributes its segment. -/
theorem claim3_order_amended (props : LSProps ι) (opts : UpdOpts)
    (ops : List (OpU ι)) (s s1 : LSState ι)
    (h : updateItems props opts ops s = .ok s1) :
    ∃ (segs : List (List (LSEv ι))) (post : List (LSEv ι)),
      segs.length ≤ ops.length ∧
      s1.events = s.events ++ segs.flatten ++ post ∧
      (∀ pr ∈ segs.zip ops, ∀ e ∈ pr.1, evForOp pr.2 e = true) ∧
      ((segs.length = ops.length ∧
        (post = [] ∨
          ∃ rest, post = LSEv.updateAllPass :: rest ∧ LSEv.updateAllPass ∉ rest)) ∨
        post = [] ∨ ∃ e2, post = [LSEv.logError e2]) := by
  by_cases hup : s.updating = false
  · rw [updateItems_eq props opts ops s hup] at h
    cases hps : processOps props opts ops { s with updating := true } with
    | abort s2 =>
      rw [hps] at h
      cases h
      obtain ⟨segs, hlen, hev, hall⟩ :=
        (processOps_segments props opts ops { s with updating := true }).2.1 s2 hps
      refine ⟨segs, [], hlen, ?_, hall, Or.inr (Or.inl rfl)⟩
      simp only [endUpdateLS]
      rw [hev]
      simp
    | err s2 e2 =>
      rw [hps] at h
      cases h
      obtain ⟨segs, hlen, hev, hall⟩ :=
        (processOps_segments props opts ops { s with updating := true }).2.2 s2 e2 hps
      refine ⟨segs, [LSEv.logError e2], hlen, ?_, hall, Or.inr (Or.inr ⟨e2, rfl⟩)⟩
      simp only [endUpdateLS]
      rw [hev]
    | ok s2 =>
      rw [hps] at h
      dsimp only at h
      obtain ⟨segs, hlen, hev, hall⟩ :=
        (processOps_segments props opts ops { s with updating := true }).1 s2 hps
      by_cases hud : opts.update = true
      · rw [if_pos hud] at h
        cases hgo : updateAllGo props
            (({ s2 with events := s2.events ++ [LSEv.updateAllPass] } : LSState ι).visible.map
              (fun pr => pr.1))
            { s2 with events := s2.events ++ [LSEv.updateAllPass] } with
        | ok s4 =>
          rw [hgo] at h
          cases h
          obtain ⟨t2, et2, nt2⟩ := (updateAllGo_evExt props _ _).1 s4 hgo
          refine ⟨segs, LSEv.updateAllPass :: t2, hlen.le, ?_, hall,
            Or.inl ⟨hlen, Or.inr ⟨t2, rfl, nt2⟩⟩⟩
          simp only [endUpdateLS]
          rw [et2]
          simp only at et2 ⊢
          rw [hev]
          simp
        | error pr =>
          obtain ⟨s4, e4⟩ := pr
          rw [hgo] at h
          cases h
          obtain ⟨t2, et2, nt2⟩ := (updateAllGo_evExt props _ _).2 s4 e4 hgo
          refine ⟨segs, LSEv.updateAllPass :: (t2 ++ [LSEv.logError e4]), hlen.le, ?_, hall,
            Or.inl ⟨hlen, Or.inr ⟨t2 ++ [LSEv.logError e4], rfl, by simp [nt2]⟩⟩⟩
          simp only [endUpdateLS]
          rw [et2]
          simp only at et2 ⊢
          rw [hev]
          simp
      · rw [if_neg hud] at h
        cases h
        refine ⟨segs, [], hlen.le, ?_, hall, Or.inl ⟨hlen, Or.inl rfl⟩⟩
        simp only [endUpdateLS]
        rw [hev]
        simp
  · rw [updateItems, if_pos (by simpa using hup)] at h
    cases h

/-! ## Claim C4 — exception handling in updateItems -/

/-- C4 (counterexample): when the subclass layout computation throws during
the add/remove sequence, the exception is caught, logged and the update
cancelled, but no render is force-requested: the view's needs-render flag
stays `false` (only the creation-disabled abort path sets it). -/
theorem claim4_counterexample :
    (updateItems cPropsBoom ⟨true, true, true, false⟩
        [⟨none, some 1⟩, ⟨some 0, none⟩] cLS).toOption.map
      (fun s1 => (s1.viewNeedsRender, s1.updating,
        decide (LSEv.logError "boom" ∈ s1.events))) = some (false, false, true) := by
  decide

/-- C4 (amended): any exception thrown while `updateItems` processes the
add/remove sequence is caught and logged, the update is cancelled (ended
without committing, the source no longer marked updating), and the pool and
visible-index map keep exactly the partial state produced before the failure
(no rollback); the view's needs-render flag is left unchanged (no render is
force-requested on this path). -/
theorem claim4_exception_caught (props : LSProps ι) (opts : UpdOpts)
    (ops : List (OpU ι)) (s s2 : LSState ι) (e : String)
    (hu : s.updating = false)
    (herr : processOps props opts ops { s with updating := true } = .err s2 e) :
    ∃ s1, updateItems props opts ops s = .ok s1 ∧
      s1.itemQueues = s2.itemQueues ∧ s1.visible = s2.visible ∧
      s1.updating = false ∧ s1.viewNeedsRender = s2.viewNeedsRender ∧
      s1.events = s2.events ++ [LSEv.logError e] := by
  rw [updateItems_eq props opts ops s hu, herr]
  exact ⟨_, rfl, rfl, rfl, rfl, rfl, rfl⟩

/-- C3 (witness): the amended ordering theorem applied to the concrete
two-operation run of the counterexample, `{add: 0}` yielded before
`{remove: 1}`: the committed trace is the addition's segment
`[created 0, updatedItem 0]` followed by the removal's segment
`[queuedItem 1]` — the yielded order — with no update pass. -/
theorem claim3_witness :
    ∃ s1, updateItems cProps ⟨true, true, true, false⟩
        [⟨some 0, none⟩, ⟨none, some 1⟩] cLS = .ok s1 ∧
      s1.events = [LSEv.created 0, LSEv.updatedItem 0, LSEv.queuedItem 1] ∧
      ∃ (segs : List (List (LSEv ℕ))) (post : List (LSEv ℕ)),
        segs.length ≤ 2 ∧
        s1.events = cLS.events ++ segs.flatten ++ post ∧
        (∀ pr ∈ segs.zip [(⟨some 0, none⟩ : OpU ℕ), ⟨none, some 1⟩],
          ∀ e ∈ pr.1, evForOp pr.2 e = true) ∧
        ((segs.length = 2 ∧
          (post = [] ∨
            ∃ rest, post = LSEv.updateAllPass :: rest ∧ LSEv.updateAllPass ∉ rest)) ∨
          post = [] ∨ ∃ e2, post = [LSEv.logError e2]) :=
  ⟨_, rfl, by decide,
    claim3_order_amended cProps ⟨true, true, true, false⟩
      [⟨some 0, none⟩, ⟨none, some 1⟩] cLS _ rfl⟩

/-- C4 (witness): the amended exception theorem applied to the concrete
throwing run (layout computation throws `"boom"` at index 0). -/
theorem claim4_witness :
    cLS.updating = false ∧
    processOps cPropsBoom ⟨true, true, true, false⟩ [⟨some 0, none⟩]
        { cLS with updating := true } =
      .err { itemQueues := [("src", [])], visible := [(1, cItem1)], updating := true,
             zIndex := 3, viewNeedsRender := false,
             events := [LSEv.created 0] } "boom" ∧
    ∃ s1, updateItems cPropsBoom ⟨true, true, true, false⟩ [⟨some 0, none⟩] cLS = .ok s1 ∧
      s1.itemQueues = [("src", [])] ∧
      s1.visible = [(1, cItem1)] ∧
      s1.updating = false ∧
      s1.viewNeedsRender = false ∧
      s1.events = [LSEv.created 0] ++ [LSEv.logError "boom"] :=
  ⟨rfl, rfl,
    claim4_exception_caught cPropsBoom ⟨true, true, true, false⟩ [⟨some 0, none⟩] cLS
      { itemQueues := [("src", [])], visible := [(1, cItem1)], updating := true,
        zIndex := 3, viewNeedsRender := false, events := [LSEv.created 0] }
      "boom" rfl rfl⟩

/-! ## Claim C5 — abort when creation is disabled and no pooled record -/

/-- C5: during `updateItems`, when an addition finds no pooled record to
dequeue (or dequeuing is disabled) and item creation is disabled, the whole
update aborts: the update is cancelled (not updating afterwards), the view is
marked render-needed, the already-applied prefix of the sequence stays
applied, and the remaining operations are never processed — the result is the
same for every suffix `rest`. -/
theorem claim5_abort_on_failed_dequeue (props : LSProps ι) (opts : UpdOpts)
    (done rest : List (OpU ι)) (s s1 : LSState ι) (a : ι)
    (hu : s.updating = false)
    (hpre : processOps props opts done { s with updating := true } = .ok s1)
    (hc : opts.create = false)
    (hd : opts.dequeue = false ∨ qGet s1.itemQueues (computeReuseID props a) = []) :
    updateItems props opts (done ++ (⟨some a, none⟩ : OpU ι) :: rest) s =
      .ok { (if opts.dequeue then (dequeueItemRaw s1 (computeReuseID props a)).1 else s1) with
            updating := false, viewNeedsRender := true } := by
  have habort : processOp props opts s1 ⟨some a, none⟩ =
      .abort (if opts.dequeue then (dequeueItemRaw s1 (computeReuseID props a)).1 else s1) := by
    rw [processOp_add_eq props opts s1 a none (Or.inl rfl)]
    by_cases hdq : opts.dequeue = true
    · rw [if_pos hdq, if_pos hdq]
      have hempty : qGet s1.itemQueues (computeReuseID props a) = [] := by
        rcases hd with h | h
        · rw [h] at hdq
          cases hdq
        · exact h
      have hdeq : dequeueItem props s1 a =
          .ok ((dequeueItemRaw s1 (computeReuseID props a)).1, none) := by
        rw [dequeueItem]
        have h2 := (dequeueItemRaw_spec s1 (computeReuseID props a)).1
        rw [hempty] at h2
        cases hr : dequeueItemRaw s1 (computeReuseID props a) with
        | mk sr ir =>
          rw [hr] at h2
          dsimp only at h2
          have h3 : ir = none := h2.trans rfl
          subst h3
          rfl
      rw [hdeq, hc]
      rfl
    · have hdqf : opts.dequeue = false := by
        cases hv : opts.dequeue
        · rfl
        · rw [hv] at hdq
          cases hdq rfl
      rw [hdqf, hc]
      rfl
  rw [updateItems_eq props opts (done ++ (⟨some a, none⟩ : OpU ι) :: rest) s hu]
  rw [processOps_append props opts done ((⟨some a, none⟩ : OpU ι) :: rest)
    { s with updating := true }]
  rw [hpre]
  dsimp only
  rw [processOps, habort]
  rfl

/-- C5 (witness): with creation disabled and an empty pool, the concrete
update aborts on the first addition, leaving something render-needed and no
further operation processed. -/
theorem claim5_witness :
    cLS.updating = false ∧
    processOps cProps ⟨true, true, false, true⟩ [] { cLS with updating := true } =
      .ok { cLS with updating := true } ∧
    (⟨true, true, false, true⟩ : UpdOpts).create = false ∧
    ((⟨true, true, false, true⟩ : UpdOpts).dequeue = false ∨
      qGet ({ cLS with updating := true } : LSState ℕ).itemQueues
        (computeReuseID cProps 0) = []) ∧
    updateItems cProps ⟨true, true, false, true⟩
        ([] ++ (⟨some 0, none⟩ : OpU ℕ) :: [⟨some 5, none⟩]) cLS =
      .ok { (if (⟨true, true, false, true⟩ : UpdOpts).dequeue then
              (dequeueItemRaw ({ cLS with updating := true } : LSState ℕ)
                (computeReuseID cProps 0)).1
            else { cLS with updating := true }) with
            updating := false, viewNeedsRender := true } :=
  ⟨rfl, rfl, rfl, Or.inr rfl,
    claim5_abort_on_failed_dequeue cProps ⟨true, true, false, true⟩ [] [⟨some 5, none⟩]
      cLS { cLS with updating := true } 0 rfl rfl rfl (Or.inr rfl)⟩

/-! ## Claim C9 — reuse-ID-scoped LIFO recycling -/

/-- C9: recycling is reuse-ID-scoped and LIFO. Under the pool invariant
(every pooled record's stored reuseID matches its bucket key),
`dequeueItem(index)` only ever returns a record popped from the pool keyed by
the reuseID computed for the index — the most-recently-queued such record
(`getLast?` of the bucket, which `queueItem` appends to) — so a record queued
under reuseID "A" is never returned for a request whose computed reuseID is
"B"; and a record whose reuseID is the empty string is never placed in any
pool by `queueItem`. -/
theorem claim9_recycling (props : LSProps ι) (s : LSState ι) (i : ι)
    (hinv : ∀ pr ∈ s.itemQueues, ∀ it ∈ pr.2, it.reuseID = pr.1) :
    (∀ s1 it, dequeueItem props s i = .ok (s1, some it) →
        it.reuseID = computeReuseID props i ∧
        (∃ it0, (qGet s.itemQueues (computeReuseID props i)).getLast? = some it0 ∧
          it0.reuseID = it.reuseID) ∧
        qGet s1.itemQueues (computeReuseID props i) =
          (qGet s.itemQueues (computeReuseID props i)).dropLast ∧
        (∀ r', r' ≠ computeReuseID props i →
          qGet s1.itemQueues r' = qGet s.itemQueues r')) ∧
    (∀ j itj, getVisibleItem s j = some itj →
        (itj.reuseID = "" → (queueItem s j).1.itemQueues = s.itemQueues) ∧
        (itj.reuseID ≠ "" →
          qGet (queueItem s j).1.itemQueues itj.reuseID =
            qGet s.itemQueues itj.reuseID ++ [{ itj with opacity := 0 }])) := by
  constructor
  · intro s1 it h
    obtain ⟨q1, q2, q3, -, -, -, -⟩ := dequeueItemRaw_spec s (computeReuseID props i)
    rw [dequeueItem] at h
    cases hr : dequeueItemRaw s (computeReuseID props i) with
    | mk sr ir =>
      rw [hr] at h q1 q2 q3
      dsimp only at q1 q2 q3
      cases ir with
      | none =>
        dsimp only at h
        cases h
      | some item0 =>
        dsimp only at h
        have hit0 : item0.reuseID = computeReuseID props i := by
          apply qGet_mem_inv s.itemQueues (computeReuseID props i) hinv
          exact mem_of_getLast?_eq _ _ q1.symm
        cases hup : updateItem props sr item0 i false with
        | error e2 =>
          rw [hup] at h
          cases h
        | ok pr =>
          obtain ⟨s2, item2⟩ := pr
          rw [hup] at h
          obtain ⟨f1, -, f3, -, -, -⟩ := updateItem_ok_facts _ _ _ _ _ _ _ hup
          dsimp only at h
          by_cases hsr : props.shouldRenderItem item2 item0.index item0.contentLayout = true
          · rw [if_pos hsr] at h
            simp only [Except.ok.injEq, Prod.mk.injEq, Option.some.injEq] at h
            obtain ⟨hs1, hit⟩ := h
            have hitR : it.reuseID = computeReuseID props i := by
              rw [← hit]
              exact f3.trans hit0
            refine ⟨hitR, ⟨item0, q1.symm, hit0.trans hitR.symm⟩, ?_, ?_⟩
            · rw [← hs1]
              have : (setVisibleItem s2 i
                  (some { item2 with renderNonce := item2.renderNonce + 1 })).itemQueues =
                  s2.itemQueues := by
                simp [setVisibleItem]
              rw [this, f1]
              exact q2
            · intro r' hr'
              rw [← hs1]
              have : (setVisibleItem s2 i
                  (some { item2 with renderNonce := item2.renderNonce + 1 })).itemQueues =
                  s2.itemQueues := by
                simp [setVisibleItem]
              rw [this, f1]
              exact q3 r' hr'
          · rw [if_neg hsr] at h
            simp only [Except.ok.injEq, Prod.mk.injEq, Option.some.injEq] at h
            obtain ⟨hs1, hit⟩ := h
            have hitR : it.reuseID = computeReuseID props i := by
              rw [← hit]
              exact f3.trans hit0
            refine ⟨hitR, ⟨item0, q1.symm, hit0.trans hitR.symm⟩, ?_, ?_⟩
            · rw [← hs1, f1]
              exact q2
            · intro r' hr'
              rw [← hs1, f1]
              exact q3 r' hr'
  · intro j itj hv
    constructor
    · intro hempty
      rw [queueItem, hv]
      dsimp only
      rw [if_neg (by simp [hempty])]
      simp [setVisibleItem]
    · intro hne
      rw [queueItem, hv]
      dsimp only
      rw [if_pos hne]
      have hq : (setVisibleItem { s with events := s.events ++ [LSEv.queuedItem j] } j
          none).itemQueues = s.itemQueues := by
        simp [setVisibleItem]
      dsimp only
      rw [hq]
      exact qGet_qSet_self s.itemQueues itj.reuseID _

/-- C9 (witness): the recycling theorem at a concrete state — one pooled
record under reuseID "A", a request computing "A", and a visible item with an
empty reuseID. -/
theorem claim9_witness :
    (∀ pr ∈ cLSA.itemQueues, ∀ it ∈ pr.2, it.reuseID = pr.1) ∧
    ((∀ s1 it, dequeueItem cPropsA cLSA 9 = .ok (s1, some it) →
        it.reuseID = computeReuseID cPropsA 9 ∧
        (∃ it0, (qGet cLSA.itemQueues (computeReuseID cPropsA 9)).getLast? = some it0 ∧
          it0.reuseID = it.reuseID) ∧
        qGet s1.itemQueues (computeReuseID cPropsA 9) =
          (qGet cLSA.itemQueues (computeReuseID cPropsA 9)).dropLast ∧
        (∀ r', r' ≠ computeReuseID cPropsA 9 →
          qGet s1.itemQueues r' = qGet cLSA.itemQueues r')) ∧
      (∀ j itj, getVisibleItem cLSA j = some itj →
        (itj.reuseID = "" → (queueItem cLSA j).1.itemQueues = cLSA.itemQueues) ∧
        (itj.reuseID ≠ "" →
          qGet (queueItem cLSA j).1.itemQueues itj.reuseID =
            qGet cLSA.itemQueues itj.reuseID ++ [{ itj with opacity := 0 }]))) :=
  ⟨by decide, claim9_recycling cPropsA cLSA 9 (by decide)⟩

end LayoutSrc
